import Mathlib

/-!
Verification of the beam-analysis engine (`src/js/beam-analysis.js`).

The source computes deflection, bending-moment and shear-force curves for a
beam under a uniformly distributed load, for two support conditions
("simply-supported" and "two-span-unequal"), dispatched through a facade
(`BeamAnalysis`).  All arithmetic of the source is modelled exactly over `ℚ`
(idealised real arithmetic); the display rounding `Number.toFixed(2)` is
modelled by `round2`; the `for`-loops of the source are modelled by
fuel-indexed recursion, with the fuel chosen large enough (theorems about the
traces establish the loops finish well inside it wherever they are claimed
to finish).
-/

namespace BeamVerify

/-- Display rounding to two decimal digits, the model of JavaScript
`Number.prototype.toFixed(2)` on an exact rational: the nearest multiple of
`1/100`, ties rounded away from zero (ECMA-262 rounds the magnitude, picking
the larger candidate on a tie, and re-attaches the sign). -/
def round2 (q : ℚ) : ℚ :=
  if 0 ≤ q then (⌊q * 100 + 1/2⌋ : ℚ) / 100 else -((⌊(-q) * 100 + 1/2⌋ : ℚ) / 100)

/-- `class Material`: a name plus the properties read by the analyzers.
The only property any analyzer reads is `properties.EI`. -/
structure Material where
  name : String
  EI : ℚ

/-- `class Beam`.  The constructor of the source sets `primarySpan`,
`secondarySpan` and `material`; the deflection analyzers additionally read
`beam.j2`, a field never set by the constructor, so it is modelled as an
extra field supplied from outside. -/
structure Beam where
  primarySpan : ℚ
  secondarySpan : ℚ
  material : Material
  j2 : ℚ

/-- The curve record `{analys, xdata, ydata}` returned by every generator.
`xdata` and `ydata` hold the `toFixed(2)`-rounded emitted samples, in the
order they are plotted (the source `unshift`s and then `reverse`s, which
yields emission order). -/
structure Curve where
  analys : String
  xdata : List ℚ
  ydata : List ℚ

/-- The sampling loop of every simply-supported generator:
`for (let x = 0; x <= l; x += l/100)`, modelled with fuel. -/
def ssLoop (l step x : ℚ) : ℕ → List ℚ
  | 0 => []
  | n+1 => if x ≤ l then x :: ssLoop l step (x + step) n else []

/-- The positions sampled by the simply-supported generators. -/
def ssPositions (l : ℚ) : List ℚ := ssLoop l (l/100) 0 150

namespace simplySupported

/-- The deflection value computed inside the loop of
`simplySupported.getDeflectionEquation`. -/
def deflectionValue (w l Ei j : ℚ) (x : ℚ) : ℚ :=
  -((w*x)/(24*Ei/1000^3)) * (l^3 - 2*l*x^2 + x^3) * j * 1000

/-- The bending-moment value computed inside the loop of
`simplySupported.getBendingMomentEquation`. -/
def bendingMomentValue (w l : ℚ) (x : ℚ) : ℚ :=
  ((w*x/2) * (l - x)) * (-1)

/-- The shear-force value computed inside the loop of
`simplySupported.getShearForceEquation`. -/
def shearForceValue (w l : ℚ) (x : ℚ) : ℚ :=
  w * (l/2 - x)

/-- `simplySupported.getDeflectionEquation`. -/
def getDeflectionEquation (beam : Beam) (load : ℚ) : Curve :=
  let j := beam.j2
  let w := load
  let l := beam.primarySpan
  let Ei := beam.material.EI
  { analys := "deflection"
    xdata := (ssPositions l).map round2
    ydata := (ssPositions l).map (fun x => round2 (deflectionValue w l Ei j x)) }

/-- `simplySupported.getBendingMomentEquation`. -/
def getBendingMomentEquation (beam : Beam) (load : ℚ) : Curve :=
  let w := load
  let l := beam.primarySpan
  { analys := "bendingmoment"
    xdata := (ssPositions l).map round2
    ydata := (ssPositions l).map (fun x => round2 (bendingMomentValue w l x)) }

/-- `simplySupported.getShearForceEquation`. -/
def getShearForceEquation (beam : Beam) (load : ℚ) : Curve :=
  let w := load
  let l := beam.primarySpan
  { analys := "shearforce"
    xdata := (ssPositions l).map round2
    ydata := (ssPositions l).map (fun x => round2 (shearForceValue w l x)) }

end simplySupported

/-- The reaction set computed (identically, line for line) at the top of all
three `twoSpanUnequal` generators. -/
structure Reactions where
  m1 : ℚ
  r1 : ℚ
  r2 : ℚ
  r3 : ℚ

/-- The reaction formulas shared by the three `twoSpanUnequal` generators:
`m1 = -((w*l2^3)+(w*l1^3))/(8*(l1+l2))`, `r1 = m1/l1 + w*l1/2`,
`r3 = m1/l2 + w*l2/2`, `r2 = w*l1 + w*l2 - r1 - r3`. -/
def twoSpanReactions (w l1 l2 : ℚ) : Reactions :=
  let m1 := -((w * l2^3) + (w * l1^3)) / (8 * (l1 + l2))
  let r1 := m1/l1 + (w*l1)/2
  let r3 := m1/l2 + (w*l2)/2
  let r2 := (w*l1) + (w*l2) - r1 - r3
  ⟨m1, r1, r2, r3⟩

/-- The mutable state threaded through the sampling loops of the
`twoSpanUnequal` generators: `x` is the loop variable `m` (the current
position), `mem` is the lookback variable (`lk` in the deflection and
bending-moment generators, `mn` in the shear-force generator). -/
structure LoopState where
  x : ℚ
  mem : ℚ

/-- `calculateValue` of `twoSpanUnequal.getDeflectionEquation` and (verbatim
the same code) of `twoSpanUnequal.getBendingMomentEquation`: one step of the
critical-point-aware position update.  The outer `m` is the loop variable
(equal to the argument `x` at call time) and `mn` receives the outer `lk`,
so the state transition is a function of `(x, lk)`. -/
def tsCalculateValue (l l1 r1 w r3 : ℚ) (s : LoopState) : LoopState :=
  if s.x = 0 then ⟨s.x + l/100, -(l/100)⟩
  else if |s.x - l1| ≤ l/100 ∧ s.x - l1 < 0 then ⟨l1, s.x⟩
  else if s.x < l1 ∧ s.x ≠ r1/w ∧ s.mem ≠ r1/w ∧ |s.x - r1/w| ≤ l/100 then ⟨r1/w, s.x⟩
  else if |s.x - l| < l/100 then ⟨l, s.mem⟩
  else if s.x > l1 ∧ s.x ≠ l - r3/w ∧ s.mem ≠ l - r3/w ∧ |s.x - (l - r3/w)| < l/100 then
    ⟨l - r3/w, s.x⟩
  else if s.x = r1/w ∨ s.x = l - r3/w then ⟨s.mem + l/100, s.x⟩
  else ⟨s.x + l/100, 0⟩

/-- `calculateValue` of `twoSpanUnequal.getShearForceEquation`.  It is called
as `calculateValue(m, mn, l1, l)`, so its shadowing parameter `m` receives
the outer `mn` (the lookback), while assignments to `mn` inside hit the
outer variable; assignments to the parameter `m` are local and lost. -/
def shCalculateValue (l l1 : ℚ) (s : LoopState) : LoopState :=
  if s.x = 0 then ⟨s.x + l/100, -(l/100)⟩
  else if |s.x - l1| ≤ l/100 ∧ s.x - l1 < 0 then ⟨l1, s.x⟩
  else if s.x - l1 = 0 ∧ |s.mem - l1| ≤ l/100 ∧ s.mem ≠ s.x then ⟨l1, s.x⟩
  else if |s.x - l| < l/100 then ⟨l, s.mem⟩
  else ⟨s.x + l/100, s.x - s.mem⟩

/-- `calculate` of `twoSpanUnequal.getShearForceEquation` (the per-sample
shear value).  It is called as `calculate(m, mn, m, ...)`, so `x` and `mn`
both receive the position and `m` receives the outer lookback `mn`. -/
def shCalculate (r1 r2 w l l1 : ℚ) (x m mn : ℚ) : ℚ :=
  if x = 0 then r1
  else if x = l then (r1 + r2) - w*l
  else if x = l1 ∧ m - l1 < 0 then r1 - w*l1
  else if x = l1 ∧ mn - l1 > 0 then (r1 + r2) - w*l1
  else if x < l1 then r1 - w*x
  else (r1 + r2) - w*x

/-- `calculateRoundedValue` of `twoSpanUnequal.getBendingMomentEquation`.
The source applies `.toFixed(2)` inside the branches and negates the
resulting string, hence the `-(round2 ...)` forms. -/
def calculateRoundedValue (l l1 r1 w r2 : ℚ) (x : ℚ) : ℚ :=
  if x = 0 ∨ x = l then 0
  else if x < l1 then -(round2 (r1*x - 0.5*w*x^2))
  else if x > l1 then -(round2 ((r1*x + r2*(x - l1)) - 0.5*w*x^2))
  else -(round2 (r1*l1 - 0.5*w*l1^2))

/-- `calculatePoint1` of `twoSpanUnequal.getDeflectionEquation` (span-1
closed-form deflection). -/
def calculatePoint1 (Ei r1 w l1 j : ℚ) (x : ℚ) : ℚ :=
  ((x / (24 * Ei / 1000^3)) *
    ((4*r1*x^2) - (w*x^3) + (w*l1^3) - (4*r1*l1^2))) * 1000 * j

/-- `calculatePoint2` of `twoSpanUnequal.getDeflectionEquation` (span-2
closed-form deflection). -/
def calculatePoint2 (r1 r2 l1 w Ei j : ℚ) (x : ℚ) : ℚ :=
  let term1 := (r1 * x / 6) * (x^2 - l1^2)
  let term2 := (r2 * x / 6) * (x^2 - 3*l1*x + 3*l1^2)
  let term3 := (r2 * l1^3) / 6
  let term4 := (w * x / 24) * (x^3 - l1^3)
  ((term1 + term2 - term3 - term4) / (Ei/1000^3)) * 1000 * j

/-- The sampling loop shared by `twoSpanUnequal.getBendingMomentEquation`
and `twoSpanUnequal.getShearForceEquation`:
`for(m = 0; m <= l; m = calculateValue(...))` with the body emitting
`(m, value)` and `break`ing once `m == l`; modelled with fuel. -/
def runLoop (l : ℚ) (next : LoopState → LoopState) (val : LoopState → ℚ) :
    LoopState → ℕ → List (ℚ × ℚ)
  | _, 0 => []
  | s, n+1 =>
    if s.x ≤ l then
      (s.x, val s) :: (if s.x = l then [] else runLoop l next val (next s) n)
    else []

/-- The sampling loop of `twoSpanUnequal.getDeflectionEquation`, which also
threads the iteration counter `i` (incremented every iteration) into the
per-sample value. -/
def runLoopIdx (l : ℚ) (next : LoopState → LoopState) (val : ℕ → ℚ → ℚ) :
    LoopState → ℕ → ℕ → List (ℚ × ℚ)
  | _, _, 0 => []
  | s, i, n+1 =>
    if s.x ≤ l then
      (s.x, val i s.x) :: (if s.x = l then [] else runLoopIdx l next val (next s) (i+1) n)
    else []

/-- Fuel for the two-span loops; the trace lemmas below show the loops stop
well inside it whenever they are claimed to stop. -/
def loopFuel : ℕ := 206

namespace twoSpanUnequal

/-- The `(position, value)` samples emitted by
`twoSpanUnequal.getDeflectionEquation`, before display rounding.
The branch between `calculatePoint1` and `calculatePoint2` is taken on the
iteration counter `i <= 11`, exactly as in the source. -/
def deflectionSamples (beam : Beam) (load : ℚ) : List (ℚ × ℚ) :=
  let j := beam.j2
  let w := load
  let l1 := beam.primarySpan
  let l2 := beam.secondarySpan
  let Ei := beam.material.EI
  let l := l1 + l2
  let R := twoSpanReactions w l1 l2
  runLoopIdx l (tsCalculateValue l l1 R.r1 w R.r3)
    (fun i x => if i ≤ 11 then calculatePoint1 Ei R.r1 w l1 j x
                else calculatePoint2 R.r1 R.r2 l1 w Ei j x)
    ⟨0, 0⟩ 0 loopFuel

/-- `twoSpanUnequal.getDeflectionEquation`. -/
def getDeflectionEquation (beam : Beam) (load : ℚ) : Curve :=
  { analys := "deflection"
    xdata := (deflectionSamples beam load).map (fun p => round2 p.1)
    ydata := (deflectionSamples beam load).map (fun p => round2 p.2) }

/-- The `(position, value)` samples emitted by
`twoSpanUnequal.getBendingMomentEquation`, before display rounding. -/
def bendingMomentSamples (beam : Beam) (load : ℚ) : List (ℚ × ℚ) :=
  let w := load
  let l1 := beam.primarySpan
  let l2 := beam.secondarySpan
  let l := l1 + l2
  let R := twoSpanReactions w l1 l2
  runLoop l (tsCalculateValue l l1 R.r1 w R.r3)
    (fun s => calculateRoundedValue l l1 R.r1 w R.r2 s.x) ⟨0, 0⟩ loopFuel

/-- `twoSpanUnequal.getBendingMomentEquation`. -/
def getBendingMomentEquation (beam : Beam) (load : ℚ) : Curve :=
  { analys := "bendingmoment"
    xdata := (bendingMomentSamples beam load).map (fun p => round2 p.1)
    ydata := (bendingMomentSamples beam load).map (fun p => round2 p.2) }

/-- The `(position, value)` samples emitted by
`twoSpanUnequal.getShearForceEquation`, before display rounding. -/
def shearForceSamples (beam : Beam) (load : ℚ) : List (ℚ × ℚ) :=
  let w := load
  let l1 := beam.primarySpan
  let l2 := beam.secondarySpan
  let l := l1 + l2
  let R := twoSpanReactions w l1 l2
  runLoop l (shCalculateValue l l1)
    (fun s => shCalculate R.r1 R.r2 w l l1 s.x s.mem s.x) ⟨0, 0⟩ loopFuel

/-- `twoSpanUnequal.getShearForceEquation`. -/
def getShearForceEquation (beam : Beam) (load : ℚ) : Curve :=
  { analys := "shearforce"
    xdata := (shearForceSamples beam load).map (fun p => round2 p.1)
    ydata := (shearForceSamples beam load).map (fun p => round2 p.2) }

end twoSpanUnequal

/-- The three strategy methods an analyzer exposes. -/
structure Analyzer where
  getDeflectionEquation : Beam → ℚ → Curve
  getBendingMomentEquation : Beam → ℚ → Curve
  getShearForceEquation : Beam → ℚ → Curve

/-- The `simply-supported` analyzer instance. -/
def simplySupportedAnalyzer : Analyzer :=
  ⟨simplySupported.getDeflectionEquation, simplySupported.getBendingMomentEquation,
   simplySupported.getShearForceEquation⟩

/-- The `two-span-unequal` analyzer instance. -/
def twoSpanUnequalAnalyzer : Analyzer :=
  ⟨twoSpanUnequal.getDeflectionEquation, twoSpanUnequal.getBendingMomentEquation,
   twoSpanUnequal.getShearForceEquation⟩

/-- Property names every object literal inherits from `Object.prototype`.
`this.analyzer` is an object literal, so the bracket lookup
`this.analyzer[condition]` also finds these inherited members, and each of
them is a function or object, hence truthy under `if (analyzer)`. -/
def objectPrototypeProps : List String :=
  ["constructor", "hasOwnProperty", "isPrototypeOf", "propertyIsEnumerable",
   "toLocaleString", "toString", "valueOf", "__proto__", "__defineGetter__",
   "__defineSetter__", "__lookupGetter__", "__lookupSetter__"]

/-- Outcome of the bracket lookup `this.analyzer[condition]`: a registered
analyzer (own key), a truthy value inherited from `Object.prototype` that is
not an analyzer, or `undefined` (falsy). -/
inductive AnalyzerLookup where
  | found (a : Analyzer)
  | inheritedStub
  | absent

/-- The `this.analyzer[condition]` lookup of `BeamAnalysis`, including the
prototype chain of the object literal. -/
def analyzerFor (condition : String) : AnalyzerLookup :=
  if condition = "simply-supported" then .found simplySupportedAnalyzer
  else if condition = "two-span-unequal" then .found twoSpanUnequalAnalyzer
  else if condition ∈ objectPrototypeProps then .inheritedStub
  else .absent

/-- The `{beam, load, equation}` result wrapper of the facade. -/
structure AnalysisResult where
  beam : Beam
  load : ℚ
  equation : Curve

namespace BeamAnalysis

/-- `BeamAnalysis.getDeflection`: dispatch on the lookup.  A registered
analyzer produces the result object; a truthy inherited member passes the
`if (analyzer)` guard and the subsequent `analyzer.getDeflectionEquation`
call raises a `TypeError` (the inherited value has no such method); only
`undefined` reaches `throw new Error('Invalid condition')`. -/
def getDeflection (beam : Beam) (load : ℚ) (condition : String) :
    Except String AnalysisResult :=
  match analyzerFor condition with
  | .found a => .ok ⟨beam, load, a.getDeflectionEquation beam load⟩
  | .inheritedStub =>
      .error "TypeError: analyzer.getDeflectionEquation is not a function"
  | .absent => .error "Invalid condition"

/-- `BeamAnalysis.getBendingMoment`. -/
def getBendingMoment (beam : Beam) (load : ℚ) (condition : String) :
    Except String AnalysisResult :=
  match analyzerFor condition with
  | .found a => .ok ⟨beam, load, a.getBendingMomentEquation beam load⟩
  | .inheritedStub =>
      .error "TypeError: analyzer.getBendingMomentEquation is not a function"
  | .absent => .error "Invalid condition"

/-- `BeamAnalysis.getShearForce`. -/
def getShearForce (beam : Beam) (load : ℚ) (condition : String) :
    Except String AnalysisResult :=
  match analyzerFor condition with
  | .found a => .ok ⟨beam, load, a.getShearForceEquation beam load⟩
  | .inheritedStub =>
      .error "TypeError: analyzer.getShearForceEquation is not a function"
  | .absent => .error "Invalid condition"

end BeamAnalysis

end BeamVerify

/-! ## Basic facts about the simply-supported sampling grid -/

namespace BeamVerify

lemma ssLoop_eq_range (l : ℚ) (hl : 0 < l) :
    ∀ (d k : ℕ), k + d = 101 → ∀ fuel, d + 1 ≤ fuel →
      ssLoop l (l/100) ((k : ℚ) * (l/100)) fuel
        = (List.range d).map (fun j : ℕ => ((k + j : ℕ) : ℚ) * (l/100)) := by
  intro d
  induction d with
  | zero =>
    intro k hk fuel hfuel
    obtain ⟨m, rfl⟩ : ∃ m, fuel = m + 1 := ⟨fuel - 1, by omega⟩
    have hk' : k = 101 := by omega
    subst hk'
    have hx : ¬ ((101 : ℚ) * (l/100) ≤ l) := by
      intro h
      nlinarith
    simp [ssLoop, hx]
  | succ d ih =>
    intro k hk fuel hfuel
    obtain ⟨m, rfl⟩ : ∃ m, fuel = m + 1 := ⟨fuel - 1, by omega⟩
    have hk100 : k ≤ 100 := by omega
    have hx : (k : ℚ) * (l/100) ≤ l := by
      have : (k : ℚ) ≤ 100 := by exact_mod_cast hk100
      nlinarith
    have hstep : (k : ℚ) * (l/100) + l/100 = ((k + 1 : ℕ) : ℚ) * (l/100) := by
      push_cast
      ring
    have hrec := ih (k+1) (by omega) m (by omega)
    have htail : List.map (fun j : ℕ => ((k + 1 + j : ℕ) : ℚ) * (l/100)) (List.range d)
        = List.map ((fun j : ℕ => ((k + j : ℕ) : ℚ) * (l/100)) ∘ Nat.succ) (List.range d) := by
      apply List.map_congr_left
      intro j _
      simp only [Function.comp_apply]
      congr 2
      omega
    simp only [ssLoop, if_pos hx, hstep, hrec, htail, List.range_succ_eq_map, List.map_cons,
      List.map_map, Nat.add_zero]

lemma ssPositions_eq_range (l : ℚ) (hl : 0 < l) :
    ssPositions l = (List.range 101).map (fun k : ℕ => (k : ℚ) * (l/100)) := by
  have h := ssLoop_eq_range l hl 101 0 rfl 150 (by omega)
  simpa [ssPositions] using h

lemma ssPositions_nodup (l : ℚ) (hl : 0 < l) : (ssPositions l).Nodup := by
  rw [ssPositions_eq_range l hl]
  have hstep : (l/100 : ℚ) ≠ 0 := by positivity
  have hinj : Function.Injective (fun k : ℕ => (k : ℚ) * (l/100)) := by
    intro a b hab
    have h2 : (a : ℚ) = b := mul_right_cancel₀ hstep hab
    exact_mod_cast h2
  exact List.Nodup.map hinj (List.nodup_range 101)

end BeamVerify

namespace BeamVerify

lemma ssPositions_get? (l : ℚ) (hl : 0 < l) (k : ℕ) (hk : k < 101) :
    (ssPositions l).get? k = some ((k : ℚ) * (l/100)) := by
  rw [ssPositions_eq_range l hl, List.get?_map, List.get?_range hk]
  rfl

lemma ssPositions_length (l : ℚ) (hl : 0 < l) : (ssPositions l).length = 101 := by
  rw [ssPositions_eq_range l hl, List.length_map, List.length_range]

lemma ssPositions_getLast? (l : ℚ) (hl : 0 < l) :
    (ssPositions l).getLast? = some l := by
  rw [List.getLast?_eq_get?, ssPositions_length l hl]
  have h := ssPositions_get? l hl 100 (by omega)
  rw [show (101 - 1 : ℕ) = 100 from rfl, h]
  congr 1
  ring

lemma ssPositions_mem_zero (l : ℚ) (hl : 0 < l) : (0 : ℚ) ∈ ssPositions l := by
  have h := ssPositions_get? l hl 0 (by omega)
  simp only [Nat.cast_zero, zero_mul] at h
  exact List.get?_mem h

lemma ssPositions_mem_l (l : ℚ) (hl : 0 < l) : l ∈ ssPositions l := by
  have h := ssPositions_get? l hl 100 (by omega)
  have h2 : ((100 : ℕ) : ℚ) * (l/100) = l := by push_cast; ring
  rw [h2] at h
  exact List.get?_mem h

/-- C1: the two-span reactions are computed by the formulas
`m1 = -(w·l2³ + w·l1³)/(8(l1+l2))`, `r1 = m1/l1 + w·l1/2`,
`r3 = m1/l2 + w·l2/2`, `r2 = w·l1 + w·l2 - r1 - r3` (shared by all three
`twoSpanUnequal` curve generators), and they satisfy the force balance
`r1 + r2 + r3 = w·(l1+l2)` exactly over the rationals. -/
theorem C1_two_span_reaction_balance (w l1 l2 : ℚ) (h1 : 0 < l1) (h2 : 0 < l2) :
    (twoSpanReactions w l1 l2).m1 = -((w * l2^3) + (w * l1^3)) / (8 * (l1 + l2)) ∧
    (twoSpanReactions w l1 l2).r1 = (twoSpanReactions w l1 l2).m1 / l1 + (w*l1)/2 ∧
    (twoSpanReactions w l1 l2).r3 = (twoSpanReactions w l1 l2).m1 / l2 + (w*l2)/2 ∧
    (twoSpanReactions w l1 l2).r2
      = (w*l1) + (w*l2) - (twoSpanReactions w l1 l2).r1 - (twoSpanReactions w l1 l2).r3 ∧
    (twoSpanReactions w l1 l2).r1 + (twoSpanReactions w l1 l2).r2
        + (twoSpanReactions w l1 l2).r3 = w * (l1 + l2) := by
  refine ⟨rfl, rfl, rfl, rfl, ?_⟩
  simp only [twoSpanReactions]
  ring

/-- Witness for C1 at `w = 10`, `l1 = 2`, `l2 = 3`. -/
theorem C1_two_span_reaction_balance_witness :
    (0 : ℚ) < 2 ∧ (0 : ℚ) < 3 ∧
    ((twoSpanReactions 10 2 3).m1 = -((10 * 3^3) + (10 * 2^3)) / (8 * (2 + 3)) ∧
     (twoSpanReactions 10 2 3).r1 = (twoSpanReactions 10 2 3).m1 / 2 + (10*2)/2 ∧
     (twoSpanReactions 10 2 3).r3 = (twoSpanReactions 10 2 3).m1 / 3 + (10*3)/2 ∧
     (twoSpanReactions 10 2 3).r2
       = (10*2) + (10*3) - (twoSpanReactions 10 2 3).r1 - (twoSpanReactions 10 2 3).r3 ∧
     (twoSpanReactions 10 2 3).r1 + (twoSpanReactions 10 2 3).r2
         + (twoSpanReactions 10 2 3).r3 = 10 * (2 + 3)) :=
  ⟨by norm_num, by norm_num,
   C1_two_span_reaction_balance 10 2 3 (by norm_num) (by norm_num)⟩

/-- C4: for a simply-supported beam with `l > 0`, all three generators sample
exactly the 101 uniformly spaced positions `0, l/100, ..., l`; the first
position is `0`, the last is exactly `l`, and each endpoint occurs exactly
once. -/
theorem C4_simply_supported_grid (beam : Beam) (load : ℚ)
    (hl : 0 < beam.primarySpan) :
    (ssPositions beam.primarySpan
        = (List.range 101).map (fun k : ℕ => (k : ℚ) * (beam.primarySpan/100))) ∧
    (ssPositions beam.primarySpan).length = 101 ∧
    (ssPositions beam.primarySpan).get? 0 = some 0 ∧
    (ssPositions beam.primarySpan).getLast? = some beam.primarySpan ∧
    (ssPositions beam.primarySpan).count 0 = 1 ∧
    (ssPositions beam.primarySpan).count beam.primarySpan = 1 ∧
    (simplySupported.getDeflectionEquation beam load).xdata
        = (ssPositions beam.primarySpan).map round2 ∧
    (simplySupported.getDeflectionEquation beam load).ydata.length = 101 ∧
    (simplySupported.getBendingMomentEquation beam load).xdata
        = (ssPositions beam.primarySpan).map round2 ∧
    (simplySupported.getBendingMomentEquation beam load).ydata.length = 101 ∧
    (simplySupported.getShearForceEquation beam load).xdata
        = (ssPositions beam.primarySpan).map round2 ∧
    (simplySupported.getShearForceEquation beam load).ydata.length = 101 := by
  have hlen := ssPositions_length beam.primarySpan hl
  have h0 := ssPositions_get? beam.primarySpan hl 0 (by omega)
  simp only [Nat.cast_zero, zero_mul] at h0
  refine ⟨ssPositions_eq_range _ hl, hlen, h0, ssPositions_getLast? _ hl,
    List.count_eq_one_of_mem (ssPositions_nodup _ hl) (ssPositions_mem_zero _ hl),
    List.count_eq_one_of_mem (ssPositions_nodup _ hl) (ssPositions_mem_l _ hl),
    rfl, ?_, rfl, ?_, rfl, ?_⟩ <;>
  · simp only [simplySupported.getDeflectionEquation,
      simplySupported.getBendingMomentEquation, simplySupported.getShearForceEquation,
      List.length_map, hlen]

/-- Witness for C4 at the concrete beam `primarySpan = 4`. -/
theorem C4_simply_supported_grid_witness :
    (0 : ℚ) < (Beam.mk 4 0 ⟨"steel", 2000000000⟩ 1).primarySpan ∧
    (ssPositions (Beam.mk 4 0 ⟨"steel", 2000000000⟩ 1).primarySpan).length = 101 :=
  ⟨by norm_num,
   (C4_simply_supported_grid (Beam.mk 4 0 ⟨"steel", 2000000000⟩ 1) 10
     (by norm_num)).2.1⟩

end BeamVerify

namespace BeamVerify

/-- C6: every emitted simply-supported bending-moment sample is
`-(w·x/2)·(l-x)` rounded to two decimals; `M(0) = M(l) = 0`; the moment is
symmetric about midspan; and in the concrete scenario `primarySpan = 4`,
`load = 10` the sample at `x = 2` (index 50) equals `-20`. -/
theorem C6_ss_bending_moment (beam : Beam) (load : ℚ) (hl : 0 < beam.primarySpan) :
    ((simplySupported.getBendingMomentEquation beam load).ydata
        = (ssPositions beam.primarySpan).map
            (fun x => round2 (simplySupported.bendingMomentValue load beam.primarySpan x))) ∧
    (∀ x : ℚ, simplySupported.bendingMomentValue load beam.primarySpan x
        = -(load * x / 2) * (beam.primarySpan - x)) ∧
    simplySupported.bendingMomentValue load beam.primarySpan 0 = 0 ∧
    simplySupported.bendingMomentValue load beam.primarySpan beam.primarySpan = 0 ∧
    (∀ d : ℚ, simplySupported.bendingMomentValue load beam.primarySpan
          (beam.primarySpan/2 + d)
        = simplySupported.bendingMomentValue load beam.primarySpan
          (beam.primarySpan/2 - d)) ∧
    (simplySupported.getBendingMomentEquation (Beam.mk 4 0 ⟨"steel", 2000000000⟩ 1)
        10).xdata.get? 50 = some 2 ∧
    (simplySupported.getBendingMomentEquation (Beam.mk 4 0 ⟨"steel", 2000000000⟩ 1)
        10).ydata.get? 50 = some (-20) := by
  have hx50 : (ssPositions (4 : ℚ)).get? 50 = some 2 := by
    have h := ssPositions_get? (4 : ℚ) (by norm_num) 50 (by omega)
    rw [h]
    norm_num
  refine ⟨rfl, ?_, ?_, ?_, ?_, ?_, ?_⟩
  · intro x
    simp only [simplySupported.bendingMomentValue]
    ring
  · simp only [simplySupported.bendingMomentValue]
    ring
  · simp only [simplySupported.bendingMomentValue]
    ring
  · intro d
    simp only [simplySupported.bendingMomentValue]
    ring
  · simp only [simplySupported.getBendingMomentEquation, List.get?_map, hx50,
      Option.map_some]
    norm_num [round2]
  · simp only [simplySupported.getBendingMomentEquation, List.get?_map, hx50,
      Option.map_some]
    norm_num [round2, simplySupported.bendingMomentValue]

/-- Witness for C6 at the concrete beam `primarySpan = 4`, `load = 10`. -/
theorem C6_ss_bending_moment_witness :
    (0 : ℚ) < (Beam.mk 4 0 ⟨"steel", 2000000000⟩ 1).primarySpan ∧
    (simplySupported.getBendingMomentEquation (Beam.mk 4 0 ⟨"steel", 2000000000⟩ 1)
        10).ydata.get? 50 = some (-20) :=
  ⟨by norm_num,
   (C6_ss_bending_moment (Beam.mk 4 0 ⟨"steel", 2000000000⟩ 1) 10
      (by norm_num)).2.2.2.2.2.2⟩

/-- C7: the simply-supported shear-force value is `V(x) = w·(l/2 - x)` (the
emitted samples are its 2-decimal roundings over the sampling grid), `V`
vanishes at midspan, and `V(l/2 + d) = -V(l/2 - d)` for `0 ≤ d ≤ l/2`. -/
theorem C7_ss_shear_antisymmetry (beam : Beam) (load : ℚ)
    (hl : 0 < beam.primarySpan) :
    ((simplySupported.getShearForceEquation beam load).ydata
        = (ssPositions beam.primarySpan).map
            (fun x => round2 (simplySupported.shearForceValue load beam.primarySpan x))) ∧
    (∀ x : ℚ, simplySupported.shearForceValue load beam.primarySpan x
        = load * (beam.primarySpan/2 - x)) ∧
    simplySupported.shearForceValue load beam.primarySpan (beam.primarySpan/2) = 0 ∧
    (∀ d : ℚ, 0 ≤ d → d ≤ beam.primarySpan/2 →
        simplySupported.shearForceValue load beam.primarySpan (beam.primarySpan/2 + d)
        = -(simplySupported.shearForceValue load beam.primarySpan
            (beam.primarySpan/2 - d))) := by
  refine ⟨rfl, fun x => rfl, ?_, ?_⟩
  · simp only [simplySupported.shearForceValue]
    ring
  · intro d _ _
    simp only [simplySupported.shearForceValue]
    ring

/-- Witness for C7 at `primarySpan = 4`, `load = 10`, `d = 1`. -/
theorem C7_ss_shear_antisymmetry_witness :
    (0 : ℚ) < (Beam.mk 4 0 ⟨"steel", 2000000000⟩ 1).primarySpan ∧
    (0 : ℚ) ≤ 1 ∧ (1 : ℚ) ≤ (Beam.mk 4 0 ⟨"steel", 2000000000⟩ 1).primarySpan/2 ∧
    simplySupported.shearForceValue 10
        (Beam.mk 4 0 ⟨"steel", 2000000000⟩ 1).primarySpan
        ((Beam.mk 4 0 ⟨"steel", 2000000000⟩ 1).primarySpan/2 + 1)
      = -(simplySupported.shearForceValue 10
          (Beam.mk 4 0 ⟨"steel", 2000000000⟩ 1).primarySpan
          ((Beam.mk 4 0 ⟨"steel", 2000000000⟩ 1).primarySpan/2 - 1)) :=
  ⟨by norm_num, by norm_num, by norm_num,
   (C7_ss_shear_antisymmetry (Beam.mk 4 0 ⟨"steel", 2000000000⟩ 1) 10
      (by norm_num)).2.2.2 1 (by norm_num) (by norm_num)⟩

/-- C10 (corrected): for every condition string other than
`"simply-supported"` and `"two-span-unequal"` that is also not a property
name inherited from `Object.prototype`, the three facade methods fail with
the unsupported-condition error and return no partial result.  (For the
inherited names the truthy inherited member passes the `if (analyzer)`
guard and the call fails with a `TypeError` instead; see the
counterexample.) -/
theorem C10_unsupported_condition (beam : Beam) (load : ℚ) (condition : String)
    (h1 : condition ≠ "simply-supported") (h2 : condition ≠ "two-span-unequal")
    (h3 : condition ∉ objectPrototypeProps) :
    BeamAnalysis.getDeflection beam load condition
        = Except.error "Invalid condition" ∧
    BeamAnalysis.getBendingMoment beam load condition
        = Except.error "Invalid condition" ∧
    BeamAnalysis.getShearForce beam load condition
        = Except.error "Invalid condition" := by
  have ha : analyzerFor condition = AnalyzerLookup.absent := by
    simp only [analyzerFor, if_neg h1, if_neg h2, if_neg h3]
  refine ⟨?_, ?_, ?_⟩ <;>
  · simp only [BeamAnalysis.getDeflection, BeamAnalysis.getBendingMoment,
      BeamAnalysis.getShearForce, ha]

/-- Witness for C10 at the condition string `"cantilever"`. -/
theorem C10_unsupported_condition_witness :
    ("cantilever" ≠ "simply-supported") ∧ ("cantilever" ≠ "two-span-unequal") ∧
    ("cantilever" ∉ objectPrototypeProps) ∧
    BeamAnalysis.getDeflection (Beam.mk 4 0 ⟨"steel", 2000000000⟩ 1) 10 "cantilever"
      = Except.error "Invalid condition" :=
  ⟨by simp, by simp, by simp [objectPrototypeProps],
   (C10_unsupported_condition (Beam.mk 4 0 ⟨"steel", 2000000000⟩ 1) 10 "cantilever"
      (by simp) (by simp) (by simp [objectPrototypeProps])).1⟩

/-- C10 counterexample: `"toString"` names no registered analyzer, yet none
of the three facade methods raises the invalid-condition error for it: the
inherited `Object.prototype.toString` is truthy, so the guard passes and the
call dies with a `TypeError` from the missing analyzer method instead. -/
theorem C10_counterexample :
    ("toString" ≠ "simply-supported") ∧ ("toString" ≠ "two-span-unequal") ∧
    BeamAnalysis.getDeflection (Beam.mk 4 0 ⟨"steel", 2000000000⟩ 1) 10 "toString"
      ≠ Except.error "Invalid condition" ∧
    BeamAnalysis.getBendingMoment (Beam.mk 4 0 ⟨"steel", 2000000000⟩ 1) 10 "toString"
      ≠ Except.error "Invalid condition" ∧
    BeamAnalysis.getShearForce (Beam.mk 4 0 ⟨"steel", 2000000000⟩ 1) 10 "toString"
      ≠ Except.error "Invalid condition" := by
  have ha : analyzerFor "toString" = AnalyzerLookup.inheritedStub := by
    simp [analyzerFor, objectPrototypeProps]
  refine ⟨by simp, by simp, ?_, ?_, ?_⟩ <;>
  · simp only [BeamAnalysis.getDeflection, BeamAnalysis.getBendingMoment,
      BeamAnalysis.getShearForce, ha]
    simp

end BeamVerify

namespace BeamVerify

lemma runLoop_snd (l : ℚ) (next : LoopState → LoopState) (g : ℚ → ℚ) :
    ∀ (n : ℕ) (s : LoopState) (p : ℚ × ℚ),
      p ∈ runLoop l next (fun s => g s.x) s n → p.2 = g p.1 := by
  intro n
  induction n with
  | zero => intro s p hp; simp [runLoop] at hp
  | succ n ih =>
    intro s p hp
    rw [runLoop] at hp
    by_cases hxl : s.x ≤ l
    · rw [if_pos hxl] at hp
      rcases List.mem_cons.mp hp with h | h
      · subst h; rfl
      · by_cases hstop : s.x = l
        · rw [if_pos hstop] at h; simp at h
        · rw [if_neg hstop] at h
          exact ih (next s) p h
    · rw [if_neg hxl] at hp; simp at hp

lemma runLoop_succ (l : ℚ) (next : LoopState → LoopState) (val : LoopState → ℚ)
    (s : LoopState) (n : ℕ) :
    runLoop l next val s (n+1)
      = if s.x ≤ l then
          (s.x, val s) :: (if s.x = l then [] else runLoop l next val (next s) n)
        else [] := rfl

lemma runLoopIdx_succ (l : ℚ) (next : LoopState → LoopState) (val : ℕ → ℚ → ℚ)
    (s : LoopState) (i n : ℕ) :
    runLoopIdx l next val s i (n+1)
      = if s.x ≤ l then
          (s.x, val i s.x) ::
            (if s.x = l then [] else runLoopIdx l next val (next s) (i+1) n)
        else [] := rfl

lemma runLoopIdx_get? (l : ℚ) (next : LoopState → LoopState) (val : ℕ → ℚ → ℚ) :
    ∀ (n : ℕ) (s : LoopState) (i k : ℕ) (p : ℚ × ℚ),
      (runLoopIdx l next val s i n).get? k = some p → p.2 = val (i + k) p.1 := by
  intro n
  induction n with
  | zero => intro s i k p hp; simp [runLoopIdx] at hp
  | succ n ih =>
    intro s i k p hp
    rw [runLoopIdx_succ] at hp
    by_cases hxl : s.x ≤ l
    · rw [if_pos hxl] at hp
      match k with
      | 0 =>
        rw [List.get?_cons_zero, Option.some_inj] at hp
        subst hp
        rfl
      | k+1 =>
        rw [List.get?_cons_succ] at hp
        by_cases hstop : s.x = l
        · rw [if_pos hstop] at hp; simp at hp
        · rw [if_neg hstop] at hp
          have := ih (next s) (i+1) k p hp
          rw [this]
          congr 1
          omega
    · rw [if_neg hxl] at hp; simp at hp

/-- C8: in the two-span deflection generator the branch between the two
closed-form deflection formulas is chosen by the sample index alone: the
`k`-th emitted sample value is `calculatePoint1` of the sampled position for
`k ≤ 11` and `calculatePoint2` of the sampled position for every `k ≥ 12`,
regardless of where the position lies relative to `l1`. -/
theorem C8_deflection_index_branch (beam : Beam) (load : ℚ) (k : ℕ) (p : ℚ × ℚ)
    (h : (twoSpanUnequal.deflectionSamples beam load).get? k = some p) :
    p.2 = (if k ≤ 11 then
          calculatePoint1 beam.material.EI
            (twoSpanReactions load beam.primarySpan beam.secondarySpan).r1 load
            beam.primarySpan beam.j2 p.1
        else
          calculatePoint2
            (twoSpanReactions load beam.primarySpan beam.secondarySpan).r1
            (twoSpanReactions load beam.primarySpan beam.secondarySpan).r2
            beam.primarySpan load beam.material.EI beam.j2 p.1) := by
  rw [twoSpanUnequal.deflectionSamples] at h
  have := runLoopIdx_get?
    (beam.primarySpan + beam.secondarySpan)
    (tsCalculateValue (beam.primarySpan + beam.secondarySpan) beam.primarySpan
      (twoSpanReactions load beam.primarySpan beam.secondarySpan).r1 load
      (twoSpanReactions load beam.primarySpan beam.secondarySpan).r3)
    (fun i x => if i ≤ 11 then
        calculatePoint1 beam.material.EI
          (twoSpanReactions load beam.primarySpan beam.secondarySpan).r1 load
          beam.primarySpan beam.j2 x
      else
        calculatePoint2
          (twoSpanReactions load beam.primarySpan beam.secondarySpan).r1
          (twoSpanReactions load beam.primarySpan beam.secondarySpan).r2
          beam.primarySpan load beam.material.EI beam.j2 x)
    loopFuel ⟨0, 0⟩ 0 k p h
  simpa using this

/-- Witness for C8 at the concrete beam `(5, 5)`, `load = 1`, sample `k = 0`
(whose emitted pair is `(0, 0)`). -/
theorem C8_deflection_index_branch_witness :
    (twoSpanUnequal.deflectionSamples (Beam.mk 5 5 ⟨"steel", 1⟩ 1) 1).get? 0
        = some ((0 : ℚ), (0 : ℚ)) ∧
    (((0 : ℚ), (0 : ℚ)) : ℚ × ℚ).2
      = (if (0 : ℕ) ≤ 11 then
          calculatePoint1 (Beam.mk 5 5 ⟨"steel", 1⟩ 1).material.EI
            (twoSpanReactions 1 (Beam.mk 5 5 ⟨"steel", 1⟩ 1).primarySpan
              (Beam.mk 5 5 ⟨"steel", 1⟩ 1).secondarySpan).r1 1
            (Beam.mk 5 5 ⟨"steel", 1⟩ 1).primarySpan
            (Beam.mk 5 5 ⟨"steel", 1⟩ 1).j2 (((0 : ℚ), (0 : ℚ)) : ℚ × ℚ).1
        else
          calculatePoint2
            (twoSpanReactions 1 (Beam.mk 5 5 ⟨"steel", 1⟩ 1).primarySpan
              (Beam.mk 5 5 ⟨"steel", 1⟩ 1).secondarySpan).r1
            (twoSpanReactions 1 (Beam.mk 5 5 ⟨"steel", 1⟩ 1).primarySpan
              (Beam.mk 5 5 ⟨"steel", 1⟩ 1).secondarySpan).r2
            (Beam.mk 5 5 ⟨"steel", 1⟩ 1).primarySpan 1
            (Beam.mk 5 5 ⟨"steel", 1⟩ 1).material.EI
            (Beam.mk 5 5 ⟨"steel", 1⟩ 1).j2 (((0 : ℚ), (0 : ℚ)) : ℚ × ℚ).1) := by
  have hget : (twoSpanUnequal.deflectionSamples (Beam.mk 5 5 ⟨"steel", 1⟩ 1) 1).get? 0
      = some ((0 : ℚ), (0 : ℚ)) := by
    rw [twoSpanUnequal.deflectionSamples]
    rw [show loopFuel = 205 + 1 from rfl]
    rw [runLoopIdx_succ]
    norm_num [calculatePoint1]
  exact ⟨hget, C8_deflection_index_branch (Beam.mk 5 5 ⟨"steel", 1⟩ 1) 1 0 (0, 0) hget⟩

end BeamVerify

namespace BeamVerify

/-- C5: the two-span bending-moment value emitted at a sampled position `x`
is `0` at `x ∈ {0, l}`, `-(r1·x - w·x²/2)` (display-rounded) for
`0 < x < l1`, `-(r1·x + r2·(x-l1) - w·x²/2)` (display-rounded) for
`l1 < x < l`, and `-(r1·l1 - w·l1²/2)` (display-rounded) at `x = l1`; the two
branch formulas agree exactly at `x = l1`, so the moment curve has no jump at
the middle support.  Every emitted sample pair of the generator takes its
value from this function of its own position. -/
theorem C5_two_span_moment_piecewise (l1 l2 w : ℚ) (mat : Material) (j : ℚ)
    (h1 : 0 < l1) (h2 : 0 < l2) :
    (calculateRoundedValue (l1 + l2) l1 (twoSpanReactions w l1 l2).r1 w
        (twoSpanReactions w l1 l2).r2 0 = 0) ∧
    (calculateRoundedValue (l1 + l2) l1 (twoSpanReactions w l1 l2).r1 w
        (twoSpanReactions w l1 l2).r2 (l1 + l2) = 0) ∧
    (∀ x : ℚ, 0 < x → x < l1 →
      calculateRoundedValue (l1 + l2) l1 (twoSpanReactions w l1 l2).r1 w
          (twoSpanReactions w l1 l2).r2 x
        = -(round2 ((twoSpanReactions w l1 l2).r1 * x - w * x^2 / 2))) ∧
    (∀ x : ℚ, l1 < x → x < l1 + l2 →
      calculateRoundedValue (l1 + l2) l1 (twoSpanReactions w l1 l2).r1 w
          (twoSpanReactions w l1 l2).r2 x
        = -(round2 ((twoSpanReactions w l1 l2).r1 * x
            + (twoSpanReactions w l1 l2).r2 * (x - l1) - w * x^2 / 2))) ∧
    (calculateRoundedValue (l1 + l2) l1 (twoSpanReactions w l1 l2).r1 w
        (twoSpanReactions w l1 l2).r2 l1
      = -(round2 ((twoSpanReactions w l1 l2).r1 * l1 - w * l1^2 / 2))) ∧
    ((twoSpanReactions w l1 l2).r1 * l1 - w * l1^2 / 2
      = (twoSpanReactions w l1 l2).r1 * l1
        + (twoSpanReactions w l1 l2).r2 * (l1 - l1) - w * l1^2 / 2) ∧
    (∀ p : ℚ × ℚ, p ∈ twoSpanUnequal.bendingMomentSamples (Beam.mk l1 l2 mat j) w →
      p.2 = calculateRoundedValue (l1 + l2) l1 (twoSpanReactions w l1 l2).r1 w
        (twoSpanReactions w l1 l2).r2 p.1) := by
  have hl : l1 < l1 + l2 := by linarith
  refine ⟨?_, ?_, ?_, ?_, ?_, by ring, ?_⟩
  · rw [calculateRoundedValue, if_pos (Or.inl rfl)]
  · rw [calculateRoundedValue, if_pos (Or.inr rfl)]
  · intro x hx0 hxl1
    have hne : ¬(x = 0 ∨ x = l1 + l2) := by
      push_neg
      exact ⟨ne_of_gt hx0, ne_of_lt (lt_trans hxl1 hl)⟩
    rw [calculateRoundedValue, if_neg hne, if_pos hxl1]
    congr 2
    ring
  · intro x hxl1 hxl
    have hne : ¬(x = 0 ∨ x = l1 + l2) := by
      push_neg
      exact ⟨ne_of_gt (lt_trans h1 hxl1), ne_of_lt hxl⟩
    rw [calculateRoundedValue, if_neg hne, if_neg (by linarith : ¬ x < l1),
      if_pos hxl1]
    congr 2
    ring
  · have hne : ¬(l1 = 0 ∨ l1 = l1 + l2) := by
      push_neg
      refine ⟨ne_of_gt h1, ?_⟩
      intro hcon
      linarith
    rw [calculateRoundedValue, if_neg hne, if_neg (lt_irrefl l1),
      if_neg (lt_irrefl l1)]
    congr 2
    ring
  · intro p hp
    have := runLoop_snd (l1 + l2)
      (tsCalculateValue (l1 + l2) l1 (twoSpanReactions w l1 l2).r1 w
        (twoSpanReactions w l1 l2).r3)
      (calculateRoundedValue (l1 + l2) l1 (twoSpanReactions w l1 l2).r1 w
        (twoSpanReactions w l1 l2).r2)
      loopFuel ⟨0, 0⟩ p
    apply this
    simpa [twoSpanUnequal.bendingMomentSamples] using hp

/-- Witness for C5 at `l1 = 2`, `l2 = 3`, `w = 10`, sampled positions `1`
(span 1) and `4` (span 2). -/
theorem C5_two_span_moment_piecewise_witness :
    (0 : ℚ) < 2 ∧ (0 : ℚ) < 3 ∧ (0 : ℚ) < 1 ∧ (1 : ℚ) < 2 ∧ (2 : ℚ) < 4 ∧
    (4 : ℚ) < 2 + 3 ∧
    (calculateRoundedValue (2 + 3) 2 (twoSpanReactions 10 2 3).r1 10
        (twoSpanReactions 10 2 3).r2 1
      = -(round2 ((twoSpanReactions 10 2 3).r1 * 1 - 10 * 1^2 / 2))) ∧
    (calculateRoundedValue (2 + 3) 2 (twoSpanReactions 10 2 3).r1 10
        (twoSpanReactions 10 2 3).r2 4
      = -(round2 ((twoSpanReactions 10 2 3).r1 * 4
          + (twoSpanReactions 10 2 3).r2 * (4 - 2) - 10 * 4^2 / 2))) :=
  ⟨by norm_num, by norm_num, by norm_num, by norm_num, by norm_num, by norm_num,
   (C5_two_span_moment_piecewise 2 3 10 ⟨"steel", 1⟩ 1 (by norm_num)
      (by norm_num)).2.2.1 1 (by norm_num) (by norm_num),
   (C5_two_span_moment_piecewise 2 3 10 ⟨"steel", 1⟩ 1 (by norm_num)
      (by norm_num)).2.2.2.1 4 (by norm_num) (by norm_num)⟩

end BeamVerify


/-! ## Trace analysis of the two-span shear-force sampling loop -/

namespace BeamVerify

lemma shCalculateValue_mk (l l1 x mn : ℚ) :
    shCalculateValue l l1 ⟨x, mn⟩ =
      if x = 0 then ⟨x + l/100, -(l/100)⟩
      else if |x - l1| ≤ l/100 ∧ x - l1 < 0 then ⟨l1, x⟩
      else if x - l1 = 0 ∧ |mn - l1| ≤ l/100 ∧ mn ≠ x then ⟨l1, x⟩
      else if |x - l| < l/100 then ⟨l, mn⟩
      else ⟨x + l/100, x - mn⟩ := rfl

lemma runLoop_mk_succ (l : ℚ) (next : LoopState → LoopState) (val : LoopState → ℚ)
    (x mn : ℚ) (n : ℕ) :
    runLoop l next val ⟨x, mn⟩ (n+1)
      = if x ≤ l then
          (x, val ⟨x, mn⟩) ::
            (if x = l then [] else runLoop l next val (next ⟨x, mn⟩) n)
        else [] := rfl

lemma shCalculate_mid (r1 r2 w l l1 : ℚ) (x m mn : ℚ) (hx0 : x ≠ 0) (hxl : x ≠ l)
    (hxl1 : l1 < x) :
    shCalculate r1 r2 w l l1 x m mn = (r1 + r2) - w*x := by
  rw [shCalculate, if_neg hx0, if_neg hxl,
    if_neg (by rintro ⟨h, -⟩; exact absurd h (ne_of_gt hxl1)),
    if_neg (by rintro ⟨h, -⟩; exact absurd h (ne_of_gt hxl1)),
    if_neg (by push_neg; linarith)]

lemma shRun_last (l1 l2 r1 r2 w mn : ℚ) (h1 : 0 < l1) (h2 : 0 < l2) (n : ℕ) :
    runLoop (l1+l2) (shCalculateValue (l1+l2) l1)
        (fun s => shCalculate r1 r2 w (l1+l2) l1 s.x s.mem s.x) ⟨l1+l2, mn⟩ (n+1)
      = [(l1+l2, (r1+r2) - w*(l1+l2))] := by
  rw [runLoop_mk_succ, if_pos le_rfl, if_pos rfl]
  have hv : shCalculate r1 r2 w (l1+l2) l1 (l1+l2) mn (l1+l2)
      = (r1+r2) - w*(l1+l2) := by
    rw [shCalculate, if_neg (by intro h; nlinarith), if_pos rfl]
  simp only [hv]

/-- Trace of the shear loop once the position has passed the middle support:
from any state `⟨x, mn⟩` with `l1 < x ≤ l`, the loop emits a monotone run of
positions in `(l1, l]`, each valued `(r1+r2) - w·x`, finishing exactly at
`l`. -/
lemma shRun_tail (l1 l2 r1 r2 w : ℚ) (h1 : 0 < l1) (h2 : 0 < l2) :
    ∀ (n : ℕ) (x mn : ℚ), l1 < x → x ≤ l1 + l2 →
      (l1 + l2) - x ≤ (n : ℚ) * ((l1+l2)/100) →
      ∃ B : List (ℚ × ℚ),
        runLoop (l1+l2) (shCalculateValue (l1+l2) l1)
            (fun s => shCalculate r1 r2 w (l1+l2) l1 s.x s.mem s.x) ⟨x, mn⟩ (n+2)
          = B ∧
        B ≠ [] ∧
        (B.head?).map Prod.fst = some x ∧
        (B.getLast?).map Prod.fst = some (l1+l2) ∧
        List.Chain' (fun p q : ℚ × ℚ => p.1 ≤ q.1) B ∧
        (∀ p ∈ B, l1 < p.1 ∧ p.1 ≤ l1 + l2 ∧ p.2 = (r1 + r2) - w * p.1) := by
  have hst : (0:ℚ) < (l1+l2)/100 := by positivity
  intro n
  induction n with
  | zero =>
    intro x mn hx1 hx2 hx3
    have hxL : x = l1 + l2 := by
      simp only [Nat.cast_zero, zero_mul] at hx3
      linarith
    subst hxL
    exact ⟨[(l1+l2, (r1+r2) - w*(l1+l2))], shRun_last l1 l2 r1 r2 w mn h1 h2 1,
      by simp, by simp, by simp, by simp,
      by intro p hp; simp only [List.mem_singleton] at hp; subst hp
         exact ⟨hx1, le_rfl, rfl⟩⟩
  | succ n ih =>
    intro x mn hx1 hx2 hx3
    by_cases hxL : x = l1 + l2
    · subst hxL
      exact ⟨[(l1+l2, (r1+r2) - w*(l1+l2))], shRun_last l1 l2 r1 r2 w mn h1 h2 (n+2),
        by simp, by simp, by simp, by simp,
        by intro p hp; simp only [List.mem_singleton] at hp; subst hp
           exact ⟨hx1, le_rfl, rfl⟩⟩
    · have hxlt : x < l1 + l2 := lt_of_le_of_ne hx2 hxL
      have hx0 : x ≠ 0 := by intro h; rw [h] at hx1; linarith
      have hval : shCalculate r1 r2 w (l1+l2) l1 x mn x = (r1 + r2) - w*x :=
        shCalculate_mid r1 r2 w (l1+l2) l1 x mn x hx0 hxL hx1
      have hc2 : ¬(|x - l1| ≤ (l1+l2)/100 ∧ x - l1 < 0) := by
        rintro ⟨-, h⟩; linarith
      have hc3 : ¬(x - l1 = 0 ∧ |mn - l1| ≤ (l1+l2)/100 ∧ mn ≠ x) := by
        rintro ⟨h, -⟩
        have : x = l1 := by linarith
        exact absurd this (ne_of_gt hx1)
      by_cases hnear : (l1 + l2) - x < (l1+l2)/100
      · -- the nominal next position is within a step of the right end: snap to it
        have hnext : shCalculateValue (l1+l2) l1 ⟨x, mn⟩ = ⟨l1+l2, mn⟩ := by
          rw [shCalculateValue_mk, if_neg hx0, if_neg hc2, if_neg hc3,
            if_pos (by rw [abs_of_nonpos (by linarith)]; linarith)]
        refine ⟨(x, (r1+r2) - w*x) :: [(l1+l2, (r1+r2) - w*(l1+l2))], ?_, by simp,
          by simp, by simp [List.getLast?_cons_cons], ?_, ?_⟩
        · rw [runLoop_mk_succ, if_pos hx2, if_neg hxL, hnext,
            shRun_last l1 l2 r1 r2 w mn h1 h2 (n+1), hval]
        · refine List.chain'_cons'.mpr ⟨?_, by simp⟩
          intro y hy
          simp only [List.head?_cons, Option.mem_def, Option.some_inj] at hy
          subst hy
          show x ≤ l1 + l2
          linarith
        · intro p hp
          rcases List.mem_cons.mp hp with h | h
          · subst h; exact ⟨hx1, le_of_lt hxlt, rfl⟩
          · simp only [List.mem_singleton] at h; subst h
            exact ⟨show l1 < l1 + l2 by linarith, le_rfl, rfl⟩
      · -- plain advance by one step
        have hnext : shCalculateValue (l1+l2) l1 ⟨x, mn⟩
            = ⟨x + (l1+l2)/100, x - mn⟩ := by
          rw [shCalculateValue_mk, if_neg hx0, if_neg hc2, if_neg hc3,
            if_neg (by rw [abs_of_nonpos (by linarith)]; linarith)]
        obtain ⟨B, hB, hBne, hBhead, hBlast, hBchain, hBmem⟩ :=
          ih (x + (l1+l2)/100) (x - mn) (by linarith) (by linarith)
            (by push_cast at hx3 ⊢; linarith)
        refine ⟨(x, (r1+r2) - w*x) :: B, ?_, by simp, by simp, ?_, ?_, ?_⟩
        · rw [runLoop_mk_succ, if_pos hx2, if_neg hxL, hnext, hval, hB]
        · obtain ⟨c, t, rfl⟩ := List.exists_cons_of_ne_nil hBne
          rw [List.getLast?_cons_cons]
          exact hBlast
        · refine List.chain'_cons'.mpr ⟨?_, hBchain⟩
          intro y hy
          obtain ⟨c, t, rfl⟩ := List.exists_cons_of_ne_nil hBne
          simp only [List.head?_cons, Option.mem_def, Option.some_inj] at hy
          subst hy
          simp only [List.head?_cons, Option.map_some, Option.some_inj] at hBhead
          have : c.1 = x + (l1+l2)/100 := by
            simpa using congrArg (fun o => o) hBhead
          rw [this]
          linarith
        · intro p hp
          rcases List.mem_cons.mp hp with h | h
          · subst h; exact ⟨hx1, le_of_lt hxlt, rfl⟩
          · exact hBmem p h

end BeamVerify

namespace BeamVerify

lemma shCalculate_span1 (r1 r2 w l l1 : ℚ) (x m mn : ℚ) (hx0 : x ≠ 0)
    (hxl1 : x < l1) (hl1l : l1 < l) :
    shCalculate r1 r2 w l l1 x m mn = r1 - w*x := by
  have hxl1' : x ≠ l1 := ne_of_lt hxl1
  rw [shCalculate, if_neg hx0, if_neg (by intro h; rw [h] at hxl1; linarith),
    if_neg (by rintro ⟨h, -⟩; exact hxl1' h),
    if_neg (by rintro ⟨h, -⟩; exact hxl1' h), if_pos hxl1]

lemma shCalculate_support_left (r1 r2 w l l1 : ℚ) (m mn : ℚ) (h1 : 0 < l1)
    (hl1l : l1 < l) (hm : m < l1) :
    shCalculate r1 r2 w l l1 l1 m mn = r1 - w*l1 := by
  rw [shCalculate, if_neg (ne_of_gt h1), if_neg (ne_of_lt hl1l),
    if_pos ⟨rfl, by linarith⟩]

lemma shCalculate_support_right (r1 r2 w l l1 : ℚ) (h1 : 0 < l1) (hl1l : l1 < l) :
    shCalculate r1 r2 w l l1 l1 l1 l1 = (r1 + r2) - w*l1 := by
  rw [shCalculate, if_neg (ne_of_gt h1), if_neg (ne_of_lt hl1l),
    if_neg (by rintro ⟨-, h⟩; linarith), if_neg (by rintro ⟨-, h⟩; linarith),
    if_neg (lt_irrefl l1)]

/-- Full trace of the two-span shear loop when the middle support lies beyond
the first nominal step (`l/100 < l1`), starting from any on-grid state
`⟨k·(l/100), mn⟩` still in span 1: it emits span-1 samples valued `r1 - w·x`,
then the support position `l1` twice — first with the left-limit value
`r1 - w·l1`, then with the right-limit value `(r1+r2) - w·l1` — and then
span-2 samples valued `(r1+r2) - w·x`, ending exactly at `l`. -/
lemma shRun_main (l1 l2 r1 r2 w : ℚ) (h2 : 0 < l2) (hstep : (l1+l2)/100 < l1) :
    ∀ (n : ℕ) (k : ℕ) (mn : ℚ),
      (k : ℚ) * ((l1+l2)/100) < l1 →
      l1 - (k : ℚ) * ((l1+l2)/100) ≤ (n : ℚ) * ((l1+l2)/100) →
      ∃ A B : List (ℚ × ℚ),
        runLoop (l1+l2) (shCalculateValue (l1+l2) l1)
            (fun s => shCalculate r1 r2 w (l1+l2) l1 s.x s.mem s.x)
            ⟨(k:ℚ)*((l1+l2)/100), mn⟩ (n+106)
          = A ++ (l1, r1 - w*l1) :: (l1, (r1+r2) - w*l1) :: B ∧
        (A.head?).map Prod.fst = some ((k:ℚ)*((l1+l2)/100)) ∧
        (∀ p ∈ A, 0 ≤ p.1 ∧ p.1 < l1 ∧ p.2 = r1 - w*p.1) ∧
        (∀ p ∈ B, l1 < p.1 ∧ p.1 ≤ l1+l2 ∧ p.2 = (r1+r2) - w*p.1) ∧
        B ≠ [] ∧ (B.getLast?).map Prod.fst = some (l1+l2) ∧
        List.Chain' (fun p q : ℚ × ℚ => p.1 ≤ q.1)
          (A ++ (l1, r1 - w*l1) :: (l1, (r1+r2) - w*l1) :: B) := by
  have h1 : 0 < l1 := by linarith
  have hst : (0:ℚ) < (l1+l2)/100 := by positivity
  have hl1l : l1 < l1 + l2 := by linarith
  intro n
  induction n with
  | zero =>
    intro k mn hk1 hk2
    exfalso
    simp only [Nat.cast_zero, zero_mul] at hk2
    linarith
  | succ n ih =>
    intro k mn hk1 hk2
    set st : ℚ := (l1+l2)/100 with hstdef
    by_cases hS : l1 - (k:ℚ) * st ≤ st
    · -- the support is within one step: snap to it and emit it twice
      have hk0 : k ≠ 0 := by
        intro h
        subst h
        simp only [Nat.cast_zero, zero_mul, sub_zero] at hS
        linarith
      have hkpos : (1:ℚ) ≤ (k:ℚ) := by exact_mod_cast Nat.one_le_iff_ne_zero.mpr hk0
      have hxpos : 0 < (k:ℚ) * st := by nlinarith
      have hx0 : (k:ℚ) * st ≠ 0 := ne_of_gt hxpos
      have hxlt : (k:ℚ) * st < l1 := hk1
      -- first transition: snap to l1
      have hnext1 : shCalculateValue (l1+l2) l1 ⟨(k:ℚ)*st, mn⟩ = ⟨l1, (k:ℚ)*st⟩ := by
        rw [shCalculateValue_mk, if_neg hx0,
          if_pos ⟨by rw [abs_of_nonpos (by linarith)]; linarith, by linarith⟩]
      -- second transition: re-emit l1
      have hnext2 : shCalculateValue (l1+l2) l1 ⟨l1, (k:ℚ)*st⟩ = ⟨l1, l1⟩ := by
        rw [shCalculateValue_mk, if_neg (ne_of_gt h1),
          if_neg (by rintro ⟨-, h⟩; linarith),
          if_pos ⟨sub_self l1, by rw [abs_of_nonpos (by linarith)]; linarith,
            ne_of_lt hxlt⟩]
      have hv0 : shCalculate r1 r2 w (l1+l2) l1 ((k:ℚ)*st) mn ((k:ℚ)*st)
          = r1 - w*((k:ℚ)*st) :=
        shCalculate_span1 r1 r2 w (l1+l2) l1 _ mn _ hx0 hxlt hl1l
      have hv1 : shCalculate r1 r2 w (l1+l2) l1 l1 ((k:ℚ)*st) l1 = r1 - w*l1 :=
        shCalculate_support_left r1 r2 w (l1+l2) l1 _ l1 h1 hl1l hxlt
      have hv2 : shCalculate r1 r2 w (l1+l2) l1 l1 l1 l1 = (r1 + r2) - w*l1 :=
        shCalculate_support_right r1 r2 w (l1+l2) l1 h1 hl1l
      -- third transition out of ⟨l1, l1⟩, two cases on the distance to the end
      by_cases hT : l2 < st
      · have hnext3 : shCalculateValue (l1+l2) l1 ⟨l1, l1⟩ = ⟨l1+l2, l1⟩ := by
          rw [shCalculateValue_mk, if_neg (ne_of_gt h1),
            if_neg (by rintro ⟨-, h⟩; linarith),
            if_neg (by rintro ⟨-, -, h⟩; exact h rfl),
            if_pos (by rw [abs_of_nonpos (by linarith)]; linarith)]
        refine ⟨[((k:ℚ)*st, r1 - w*((k:ℚ)*st))],
          [(l1+l2, (r1+r2) - w*(l1+l2))], ?_, by simp, ?_, ?_, by simp, by simp, ?_⟩
        · rw [runLoop_mk_succ, if_pos (by linarith), if_neg (by intro h; linarith),
            hnext1, hv0]
          rw [runLoop_mk_succ, if_pos (by linarith), if_neg (by intro h; linarith),
            hnext2, hv1]
          rw [runLoop_mk_succ, if_pos (by linarith), if_neg (by intro h; linarith),
            hnext3, hv2]
          rw [shRun_last l1 l2 r1 r2 w l1 h1 h2 (n+103)]
          simp
        · intro p hp
          simp only [List.mem_singleton] at hp
          subst hp
          exact ⟨le_of_lt hxpos, hxlt, rfl⟩
        · intro p hp
          simp only [List.mem_singleton] at hp
          subst hp
          exact ⟨show l1 < l1+l2 by linarith, le_rfl, rfl⟩
        · simp only [List.cons_append, List.nil_append]
          refine List.chain'_cons'.mpr ⟨?_, ?_⟩
          · intro y hy
            simp only [List.head?_cons, Option.mem_def, Option.some_inj] at hy
            subst hy
            show (k:ℚ)*st ≤ l1
            linarith
          refine List.chain'_cons'.mpr ⟨?_, ?_⟩
          · intro y hy
            simp only [List.head?_cons, Option.mem_def, Option.some_inj] at hy
            subst hy
            exact le_rfl
          refine List.chain'_cons'.mpr ⟨?_, by simp⟩
          · intro y hy
            simp only [List.head?_cons, Option.mem_def, Option.some_inj] at hy
            subst hy
            show l1 ≤ l1 + l2
            linarith
      · have hnext3 : shCalculateValue (l1+l2) l1 ⟨l1, l1⟩ = ⟨l1 + st, 0⟩ := by
          rw [shCalculateValue_mk, if_neg (ne_of_gt h1),
            if_neg (by rintro ⟨-, h⟩; linarith),
            if_neg (by rintro ⟨-, -, h⟩; exact h rfl),
            if_neg (by rw [abs_of_nonpos (by linarith)]; push_neg; linarith)]
          rw [sub_self]
        obtain ⟨B, hB, hBne, hBhead, hBlast, hBchain, hBmem⟩ :=
          shRun_tail l1 l2 r1 r2 w h1 h2 (n+102) (l1 + st) 0 (by linarith)
            (by push_neg at hT; linarith)
            (by push_cast
                rw [← hstdef]
                have hl100 : l1 + l2 = 100 * st := by rw [hstdef]; ring
                have hns : 0 ≤ (n:ℚ)*st := mul_nonneg (Nat.cast_nonneg n) (le_of_lt hst)
                linarith)
        refine ⟨[((k:ℚ)*st, r1 - w*((k:ℚ)*st))], B, ?_, by simp, ?_, hBmem, hBne,
          hBlast, ?_⟩
        · rw [runLoop_mk_succ, if_pos (by linarith), if_neg (by intro h; linarith),
            hnext1, hv0]
          rw [runLoop_mk_succ, if_pos (by linarith), if_neg (by intro h; linarith),
            hnext2, hv1]
          rw [runLoop_mk_succ, if_pos (by linarith), if_neg (by intro h; linarith),
            hnext3, hv2]
          rw [hB]
          simp
        · intro p hp
          simp only [List.mem_singleton] at hp
          subst hp
          exact ⟨le_of_lt hxpos, hxlt, rfl⟩
        · simp only [List.cons_append, List.nil_append]
          refine List.chain'_cons'.mpr ⟨?_, ?_⟩
          · intro y hy
            simp only [List.head?_cons, Option.mem_def, Option.some_inj] at hy
            subst hy
            show (k:ℚ)*st ≤ l1
            linarith
          refine List.chain'_cons'.mpr ⟨?_, ?_⟩
          · intro y hy
            simp only [List.head?_cons, Option.mem_def, Option.some_inj] at hy
            subst hy
            exact le_rfl
          refine List.chain'_cons'.mpr ⟨?_, hBchain⟩
          · intro y hy
            obtain ⟨c, t, rfl⟩ := List.exists_cons_of_ne_nil hBne
            simp only [List.head?_cons, Option.mem_def, Option.some_inj] at hy
            have hc : c.1 = l1 + st := by simpa using hBhead
            subst hy
            rw [hc]
            show l1 ≤ l1 + st
            linarith
    · -- still more than one step below the support: plain advance
      push_neg at hS
      by_cases hk0 : k = 0
      · subst hk0
        have hx00 : ((0:ℕ):ℚ) * st = 0 := by push_cast; ring
        have hnext : shCalculateValue (l1+l2) l1 ⟨((0:ℕ):ℚ)*st, mn⟩
            = ⟨((1:ℕ):ℚ)*st, -st⟩ := by
          rw [shCalculateValue_mk, if_pos (by rw [hx00])]
          have e1 : ((0:ℕ):ℚ)*st + (l1+l2)/100 = ((1:ℕ):ℚ)*st := by
            push_cast; rw [hstdef]; ring
          rw [e1]
        have hv : shCalculate r1 r2 w (l1+l2) l1 (((0:ℕ):ℚ)*st) mn (((0:ℕ):ℚ)*st)
            = r1 := by
          rw [shCalculate, if_pos (by rw [hx00])]
        obtain ⟨A, B, hAB, hAhead, hAmem, hBmem, hBne, hBlast, hchain⟩ :=
          ih 1 (-st) (by push_cast; linarith)
            (by push_cast at hk2 ⊢; simp only [Nat.cast_zero, zero_mul] at hk2 ⊢
                linarith)
        refine ⟨(((0:ℕ):ℚ)*st, r1) :: A, B, ?_, by simp, ?_, hBmem, hBne, hBlast, ?_⟩
        · rw [runLoop_mk_succ, if_pos (by rw [hx00]; linarith),
            if_neg (by rw [hx00]; intro h; linarith), hnext, hv, hAB,
            List.cons_append]
        · intro p hp
          rcases List.mem_cons.mp hp with h | h
          · subst h
            refine ⟨by rw [hx00], by rw [hx00]; exact h1, ?_⟩
            show r1 = r1 - w * (((0:ℕ):ℚ)*st)
            rw [hx00]
            ring
          · exact hAmem p h
        · rw [List.cons_append]
          refine List.chain'_cons'.mpr ⟨?_, hchain⟩
          intro y hy
          have hAne : A ≠ [] := by
            intro h
            rw [h] at hAhead
            simp at hAhead
          obtain ⟨c, t, rfl⟩ := List.exists_cons_of_ne_nil hAne
          simp only [List.cons_append, List.head?_cons, Option.mem_def,
            Option.some_inj] at hy
          have hc : c.1 = ((1:ℕ):ℚ)*st := by simpa using hAhead
          subst hy
          rw [hc, hx00]
          push_cast
          linarith
      · have hkpos : (1:ℚ) ≤ (k:ℚ) := by exact_mod_cast Nat.one_le_iff_ne_zero.mpr hk0
        have hxpos : 0 < (k:ℚ) * st := by nlinarith
        have hx0 : (k:ℚ) * st ≠ 0 := ne_of_gt hxpos
        have hnext : shCalculateValue (l1+l2) l1 ⟨(k:ℚ)*st, mn⟩
            = ⟨((k+1:ℕ):ℚ)*st, (k:ℚ)*st - mn⟩ := by
          rw [shCalculateValue_mk, if_neg hx0,
            if_neg (by rintro ⟨h, -⟩; rw [abs_of_nonpos (by linarith)] at h; linarith),
            if_neg (by rintro ⟨h, -⟩; linarith),
            if_neg (by rw [abs_of_nonpos (by linarith)]; push_neg; linarith)]
          have e1 : (k:ℚ)*st + (l1+l2)/100 = ((k+1:ℕ):ℚ)*st := by
            push_cast; rw [hstdef]; ring
          rw [e1]
        have hv : shCalculate r1 r2 w (l1+l2) l1 ((k:ℚ)*st) mn ((k:ℚ)*st)
            = r1 - w*((k:ℚ)*st) :=
          shCalculate_span1 r1 r2 w (l1+l2) l1 _ mn _ hx0 hk1 hl1l
        obtain ⟨A, B, hAB, hAhead, hAmem, hBmem, hBne, hBlast, hchain⟩ :=
          ih (k+1) ((k:ℚ)*st - mn) (by push_cast; linarith)
            (by push_cast at hk2 ⊢; linarith)
        refine ⟨((k:ℚ)*st, r1 - w*((k:ℚ)*st)) :: A, B, ?_, by simp, ?_, hBmem,
          hBne, hBlast, ?_⟩
        · rw [runLoop_mk_succ, if_pos (by linarith), if_neg (by intro h; linarith),
            hnext, hv, hAB, List.cons_append]
        · intro p hp
          rcases List.mem_cons.mp hp with h | h
          · subst h
            exact ⟨le_of_lt hxpos, hk1, rfl⟩
          · exact hAmem p h
        · rw [List.cons_append]
          refine List.chain'_cons'.mpr ⟨?_, hchain⟩
          intro y hy
          have hAne : A ≠ [] := by
            intro h
            rw [h] at hAhead
            simp at hAhead
          obtain ⟨c, t, rfl⟩ := List.exists_cons_of_ne_nil hAne
          simp only [List.cons_append, List.head?_cons, Option.mem_def,
            Option.some_inj] at hy
          have hc : c.1 = ((k+1:ℕ):ℚ)*st := by simpa using hAhead
          subst hy
          rw [hc]
          push_cast
          nlinarith

end BeamVerify

namespace BeamVerify

/-- Trace of the two-span shear loop when the middle support lies strictly
inside the first nominal step (`l1 < l/100`): the support is never sampled;
the loop emits `(0, r1)` and then positions strictly beyond `l1` only. -/
lemma shRun_small (l1 l2 r1 r2 w : ℚ) (h1 : 0 < l1) (h2 : 0 < l2)
    (hsmall : l1 < (l1+l2)/100) :
    ∃ B : List (ℚ × ℚ),
      runLoop (l1+l2) (shCalculateValue (l1+l2) l1)
          (fun s => shCalculate r1 r2 w (l1+l2) l1 s.x s.mem s.x) ⟨0, 0⟩ 206
        = (0, r1) :: B ∧
      (B.head?).map Prod.fst = some ((l1+l2)/100) ∧
      (B.getLast?).map Prod.fst = some (l1+l2) ∧
      B ≠ [] ∧
      (∀ p ∈ B, l1 < p.1 ∧ p.1 ≤ l1+l2) ∧
      List.Chain' (fun p q : ℚ × ℚ => p.1 ≤ q.1) ((0, r1) :: B) := by
  have hst : (0:ℚ) < (l1+l2)/100 := by positivity
  have hl : (0:ℚ) < l1 + l2 := by linarith
  have hnext : shCalculateValue (l1+l2) l1 ⟨0, 0⟩ = ⟨(l1+l2)/100, -((l1+l2)/100)⟩ := by
    rw [shCalculateValue_mk, if_pos rfl]
    rw [zero_add]
  have hv : shCalculate r1 r2 w (l1+l2) l1 0 0 0 = r1 := by
    rw [shCalculate, if_pos rfl]
  obtain ⟨B, hB, hBne, hBhead, hBlast, hBchain, hBmem⟩ :=
    shRun_tail l1 l2 r1 r2 w h1 h2 203 ((l1+l2)/100) (-((l1+l2)/100)) hsmall
      (by linarith) (by push_cast; linarith)
  refine ⟨B, ?_, hBhead, hBlast, hBne, fun p hp => ⟨(hBmem p hp).1, (hBmem p hp).2.1⟩, ?_⟩
  · rw [show (206:ℕ) = 205 + 1 from rfl, runLoop_mk_succ, if_pos (le_of_lt hl),
      if_neg (ne_of_lt hl), hnext, hv]
    exact congrArg _ hB
  · refine List.chain'_cons'.mpr ⟨?_, hBchain⟩
    intro y hy
    obtain ⟨c, t, rfl⟩ := List.exists_cons_of_ne_nil hBne
    simp only [List.head?_cons, Option.mem_def, Option.some_inj] at hy
    have hc : c.1 = (l1+l2)/100 := by simpa using hBhead
    subst hy
    rw [hc]
    show (0:ℚ) ≤ (l1+l2)/100
    linarith

/-- Trace of the two-span shear loop when the middle support coincides with
the first nominal step (`l1 = l/100`): the support is sampled exactly once,
with the left-limit value only. -/
lemma shRun_eqstep (l1 l2 r1 r2 w : ℚ) (h1 : 0 < l1) (h2 : 0 < l2)
    (heq : l1 = (l1+l2)/100) :
    ∃ B : List (ℚ × ℚ),
      runLoop (l1+l2) (shCalculateValue (l1+l2) l1)
          (fun s => shCalculate r1 r2 w (l1+l2) l1 s.x s.mem s.x) ⟨0, 0⟩ 206
        = (0, r1) :: (l1, r1 - w*l1) :: B ∧
      (B.head?).map Prod.fst = some (l1 + (l1+l2)/100) ∧
      (B.getLast?).map Prod.fst = some (l1+l2) ∧
      B ≠ [] ∧
      (∀ p ∈ B, l1 < p.1 ∧ p.1 ≤ l1+l2) ∧
      List.Chain' (fun p q : ℚ × ℚ => p.1 ≤ q.1) ((0, r1) :: (l1, r1 - w*l1) :: B) := by
  have hst : (0:ℚ) < (l1+l2)/100 := by positivity
  have hl : (0:ℚ) < l1 + l2 := by linarith
  have hl1l : l1 < l1 + l2 := by linarith
  have hl2 : l2 = 99 * l1 := by
    have h' := heq
    field_simp at h'
    linarith
  have hnext0 : shCalculateValue (l1+l2) l1 ⟨0, 0⟩ = ⟨l1, -((l1+l2)/100)⟩ := by
    rw [shCalculateValue_mk, if_pos rfl, zero_add, ← heq]
  have hv0 : shCalculate r1 r2 w (l1+l2) l1 0 0 0 = r1 := by
    rw [shCalculate, if_pos rfl]
  have hv1 : shCalculate r1 r2 w (l1+l2) l1 l1 (-((l1+l2)/100)) l1 = r1 - w*l1 :=
    shCalculate_support_left r1 r2 w (l1+l2) l1 _ l1 h1 hl1l (by linarith)
  have hnext1 : shCalculateValue (l1+l2) l1 ⟨l1, -((l1+l2)/100)⟩
      = ⟨l1 + (l1+l2)/100, l1 + (l1+l2)/100⟩ := by
    rw [shCalculateValue_mk, if_neg (ne_of_gt h1),
      if_neg (by rintro ⟨-, h⟩; linarith),
      if_neg (by rintro ⟨-, habs, -⟩; rw [abs_of_nonpos (by linarith)] at habs; linarith),
      if_neg (by rw [abs_of_nonpos (by linarith)]; push_neg; linarith)]
    have : l1 - -((l1+l2)/100) = l1 + (l1+l2)/100 := by ring
    rw [this]
  obtain ⟨B, hB, hBne, hBhead, hBlast, hBchain, hBmem⟩ :=
    shRun_tail l1 l2 r1 r2 w h1 h2 202 (l1 + (l1+l2)/100) (l1 + (l1+l2)/100)
      (by linarith) (by linarith) (by push_cast; linarith)
  refine ⟨B, ?_, hBhead, hBlast, hBne, fun p hp => ⟨(hBmem p hp).1, (hBmem p hp).2.1⟩, ?_⟩
  · rw [show (206:ℕ) = 205 + 1 from rfl, runLoop_mk_succ, if_pos (le_of_lt hl),
      if_neg (ne_of_lt hl), hnext0, hv0]
    rw [show (205:ℕ) = 204 + 1 from rfl, runLoop_mk_succ, if_pos (by linarith),
      if_neg (by intro h; linarith), hnext1, hv1]
    rw [show (204:ℕ) = 202 + 2 from rfl, hB]
  · refine List.chain'_cons'.mpr ⟨?_, ?_⟩
    · intro y hy
      simp only [List.head?_cons, Option.mem_def, Option.some_inj] at hy
      subst hy
      show (0:ℚ) ≤ l1
      linarith
    refine List.chain'_cons'.mpr ⟨?_, hBchain⟩
    intro y hy
    obtain ⟨c, t, rfl⟩ := List.exists_cons_of_ne_nil hBne
    simp only [List.head?_cons, Option.mem_def, Option.some_inj] at hy
    have hc : c.1 = l1 + (l1+l2)/100 := by simpa using hBhead
    subst hy
    rw [hc]
    show l1 ≤ l1 + (l1+l2)/100
    linarith

end BeamVerify

namespace BeamVerify

lemma shearForceSamples_eq (beam : Beam) (load : ℚ) :
    twoSpanUnequal.shearForceSamples beam load
      = runLoop (beam.primarySpan + beam.secondarySpan)
          (shCalculateValue (beam.primarySpan + beam.secondarySpan) beam.primarySpan)
          (fun s => shCalculate
            (twoSpanReactions load beam.primarySpan beam.secondarySpan).r1
            (twoSpanReactions load beam.primarySpan beam.secondarySpan).r2
            load (beam.primarySpan + beam.secondarySpan) beam.primarySpan s.x s.mem s.x)
          ⟨0, 0⟩ loopFuel := rfl

/-- C2 (amended): when the middle support lies beyond the first nominal step
(`l/100 < l1`), the two-span shear curve contains exactly two consecutive
samples at the position `l1`: first the left-limit value `r1 - w·l1`, then
the right-limit value `(r1+r2) - w·l1`; no other sample sits at `l1`. -/
theorem C2_shear_support_double_sample (l1 l2 w : ℚ) (mat : Material) (j : ℚ)
    (h1 : 0 < l1) (h2 : 0 < l2) (hw : w ≠ 0) (hstep : (l1+l2)/100 < l1) :
    ∃ A B : List (ℚ × ℚ),
      twoSpanUnequal.shearForceSamples (Beam.mk l1 l2 mat j) w
        = A ++ ((l1, (twoSpanReactions w l1 l2).r1 - w*l1)
            :: (l1, ((twoSpanReactions w l1 l2).r1 + (twoSpanReactions w l1 l2).r2) - w*l1)
            :: B) ∧
      A ≠ [] ∧ (∀ p ∈ A, p.1 ≠ l1) ∧ (∀ p ∈ B, p.1 ≠ l1) ∧
      (((twoSpanUnequal.shearForceSamples (Beam.mk l1 l2 mat j) w).map Prod.fst).count l1
        = 2) ∧
      ((((twoSpanReactions w l1 l2).r1 + (twoSpanReactions w l1 l2).r2) - w*l1)
        - ((twoSpanReactions w l1 l2).r1 - w*l1) = (twoSpanReactions w l1 l2).r2) := by
  obtain ⟨A, B, hAB, hAhead, hAmem, hBmem, hBne, hBlast, hchain⟩ :=
    shRun_main l1 l2 (twoSpanReactions w l1 l2).r1 (twoSpanReactions w l1 l2).r2 w
      h2 hstep 100 0 0
      (by simpa using h1)
      (by push_cast
          have h100 : (100:ℚ) * ((l1+l2)/100) = l1 + l2 := by ring
          simp only [Nat.cast_zero, zero_mul, sub_zero]
          linarith)
  simp only [Nat.cast_zero, zero_mul] at hAB
  have hsam : twoSpanUnequal.shearForceSamples (Beam.mk l1 l2 mat j) w
      = A ++ ((l1, (twoSpanReactions w l1 l2).r1 - w*l1)
          :: (l1, ((twoSpanReactions w l1 l2).r1 + (twoSpanReactions w l1 l2).r2) - w*l1)
          :: B) := by
    rw [shearForceSamples_eq]
    dsimp only
    rw [show loopFuel = 100 + 106 from rfl]
    exact hAB
  refine ⟨A, B, hsam, ?_, ?_, ?_, ?_, by ring⟩
  · intro h
    rw [h] at hAhead
    simp at hAhead
  · intro p hp
    exact ne_of_lt (hAmem p hp).2.1
  · intro p hp
    exact (ne_of_lt (hBmem p hp).1).symm
  · rw [hsam, List.map_append, List.map_cons, List.map_cons]
    rw [List.count_append]
    have hA0 : (A.map Prod.fst).count l1 = 0 := by
      rw [List.count_eq_zero]
      intro hmem
      obtain ⟨p, hp, hp1⟩ := List.mem_map.mp hmem
      exact absurd hp1 (ne_of_lt (hAmem p hp).2.1)
    have hB0 : (B.map Prod.fst).count l1 = 0 := by
      rw [List.count_eq_zero]
      intro hmem
      obtain ⟨p, hp, hp1⟩ := List.mem_map.mp hmem
      exact absurd hp1 ((ne_of_lt (hBmem p hp).1).symm)
    simp only [hA0, List.count_cons_self, hB0]

/-- Witness for the amended C2 at `l1 = 5`, `l2 = 5`, `w = 1`. -/
theorem C2_shear_support_double_sample_witness :
    (0:ℚ) < 5 ∧ (0:ℚ) < 5 ∧ (1:ℚ) ≠ 0 ∧ ((5:ℚ)+5)/100 < 5 ∧
    (((twoSpanUnequal.shearForceSamples (Beam.mk 5 5 ⟨"steel", 1⟩ 1) 1).map
        Prod.fst).count 5 = 2) := by
  refine ⟨by norm_num, by norm_num, by norm_num, by norm_num, ?_⟩
  obtain ⟨A, B, hAB, hAne, hA, hB, hcount, hjump⟩ :=
    C2_shear_support_double_sample 5 5 1 ⟨"steel", 1⟩ 1 (by norm_num) (by norm_num)
      (by norm_num) (by norm_num)
  exact hcount

/-- C2 as literally stated is false: with `l1 = 1`, `l2 = 100` the middle
support lies inside the first nominal step and is never sampled at all, so
the shear curve does not contain two samples at `x = l1`. -/
theorem C2_counterexample :
    (((twoSpanUnequal.shearForceSamples (Beam.mk 1 100 ⟨"steel", 1⟩ 1) 1).map
        Prod.fst).count 1 = 0) ∧
    ¬ (((twoSpanUnequal.shearForceSamples (Beam.mk 1 100 ⟨"steel", 1⟩ 1) 1).map
        Prod.fst).count 1 = 2) := by
  obtain ⟨B, hB, hBhead, hBlast, hBne, hBmem, hchain⟩ :=
    shRun_small 1 100 (twoSpanReactions 1 1 100).r1 (twoSpanReactions 1 1 100).r2 1
      (by norm_num) (by norm_num) (by norm_num)
  have hsam : twoSpanUnequal.shearForceSamples (Beam.mk 1 100 ⟨"steel", 1⟩ 1) 1
      = (0, (twoSpanReactions 1 1 100).r1) :: B := by
    rw [shearForceSamples_eq]
    dsimp only
    rw [show loopFuel = 206 from rfl]
    exact hB
  have hcount : ((twoSpanUnequal.shearForceSamples (Beam.mk 1 100 ⟨"steel", 1⟩ 1) 1).map
      Prod.fst).count 1 = 0 := by
    rw [hsam, List.map_cons, List.count_eq_zero]
    intro hmem
    rcases List.mem_cons.mp hmem with h | h
    · norm_num at h
    · obtain ⟨p, hp, hp1⟩ := List.mem_map.mp h
      have := (hBmem p hp).1
      rw [hp1] at this
      norm_num at this
  exact ⟨hcount, by rw [hcount]; norm_num⟩

end BeamVerify

namespace BeamVerify

lemma round2_zero : round2 0 = 0 := by
  norm_num [round2]

lemma round2_mono : Monotone round2 := by
  intro a b hab
  rw [round2, round2]
  by_cases ha : 0 ≤ a
  · rw [if_pos ha, if_pos (le_trans ha hab)]
    have hfl : (⌊a * 100 + 1/2⌋ : ℤ) ≤ ⌊b * 100 + 1/2⌋ :=
      Int.floor_le_floor (by linarith)
    have : ((⌊a * 100 + 1/2⌋ : ℤ) : ℚ) ≤ ((⌊b * 100 + 1/2⌋ : ℤ) : ℚ) := by
      exact_mod_cast hfl
    linarith
  · push_neg at ha
    by_cases hb : 0 ≤ b
    · rw [if_neg (not_le.mpr ha), if_pos hb]
      have h1 : (0:ℤ) ≤ ⌊b * 100 + 1/2⌋ := Int.floor_nonneg.mpr (by linarith)
      have h2 : (0:ℤ) ≤ ⌊(-a) * 100 + 1/2⌋ := Int.floor_nonneg.mpr (by nlinarith)
      have h1' : (0:ℚ) ≤ ((⌊b * 100 + 1/2⌋ : ℤ) : ℚ) := by exact_mod_cast h1
      have h2' : (0:ℚ) ≤ ((⌊(-a) * 100 + 1/2⌋ : ℤ) : ℚ) := by exact_mod_cast h2
      have := div_nonneg h1' (by norm_num : (0:ℚ) ≤ 100)
      have := div_nonneg h2' (by norm_num : (0:ℚ) ≤ 100)
      linarith
    · push_neg at hb
      rw [if_neg (not_le.mpr ha), if_neg (not_le.mpr hb)]
      have hfl : (⌊(-b) * 100 + 1/2⌋ : ℤ) ≤ ⌊(-a) * 100 + 1/2⌋ :=
      Int.floor_le_floor (by linarith)
      have : ((⌊(-b) * 100 + 1/2⌋ : ℤ) : ℚ) ≤ ((⌊(-a) * 100 + 1/2⌋ : ℤ) : ℚ) := by
        exact_mod_cast hfl
      linarith

lemma ssPositions_chain (l : ℚ) (hl : 0 < l) :
    List.Chain' (· ≤ ·) (ssPositions l) := by
  rw [ssPositions_eq_range l hl]
  rw [List.chain'_map]
  rw [show (101:ℕ) = Nat.succ 100 from rfl, List.chain'_range_succ]
  intro m hm
  have hst : (0:ℚ) ≤ l/100 := by positivity
  have hc : ((m:ℚ)) ≤ ((Nat.succ m : ℕ) : ℚ) := by push_cast; linarith
  exact mul_le_mul_of_nonneg_right hc hst

/-- The union of the three shapes of the two-span shear trace: for every
valid geometry the emitted samples are non-empty, start at `0`, end exactly
at `l = l1+l2`, and are monotone in position. -/
lemma shRun_allcases (l1 l2 r1 r2 w : ℚ) (h1 : 0 < l1) (h2 : 0 < l2) :
    ∃ T : List (ℚ × ℚ),
      runLoop (l1+l2) (shCalculateValue (l1+l2) l1)
          (fun s => shCalculate r1 r2 w (l1+l2) l1 s.x s.mem s.x) ⟨0, 0⟩ 206
        = T ∧ T ≠ [] ∧
      (T.head?).map Prod.fst = some 0 ∧
      (T.getLast?).map Prod.fst = some (l1+l2) ∧
      List.Chain' (fun p q : ℚ × ℚ => p.1 ≤ q.1) T := by
  rcases lt_trichotomy l1 ((l1+l2)/100) with hlt | heq | hgt
  · obtain ⟨B, hB, hBhead, hBlast, hBne, hBmem, hchain⟩ :=
      shRun_small l1 l2 r1 r2 w h1 h2 hlt
    refine ⟨(0, r1) :: B, hB, by simp, by simp, ?_, hchain⟩
    obtain ⟨c, t, rfl⟩ := List.exists_cons_of_ne_nil hBne
    rw [List.getLast?_cons_cons]
    exact hBlast
  · obtain ⟨B, hB, hBhead, hBlast, hBne, hBmem, hchain⟩ :=
      shRun_eqstep l1 l2 r1 r2 w h1 h2 heq
    refine ⟨(0, r1) :: (l1, r1 - w*l1) :: B, hB, by simp, by simp, ?_, hchain⟩
    obtain ⟨c, t, rfl⟩ := List.exists_cons_of_ne_nil hBne
    rw [List.getLast?_cons_cons, List.getLast?_cons_cons]
    exact hBlast
  · obtain ⟨A, B, hAB, hAhead, hAmem, hBmem, hBne, hBlast, hchain⟩ :=
      shRun_main l1 l2 r1 r2 w h2 hgt 100 0 0
        (by simpa using h1)
        (by push_cast
            have h100 : (100:ℚ) * ((l1+l2)/100) = l1 + l2 := by ring
            simp only [Nat.cast_zero, zero_mul, sub_zero]
            linarith)
    simp only [Nat.cast_zero, zero_mul] at hAB hAhead
    have hAne : A ≠ [] := by
      intro h
      rw [h] at hAhead
      simp at hAhead
    refine ⟨_, hAB, ?_, ?_, ?_, hchain⟩
    · obtain ⟨c, t, rfl⟩ := List.exists_cons_of_ne_nil hAne
      simp
    · obtain ⟨c, t, rfl⟩ := List.exists_cons_of_ne_nil hAne
      simpa using hAhead
    · obtain ⟨c, t, rfl⟩ := List.exists_cons_of_ne_nil hBne
      rw [List.getLast?_append_cons, List.getLast?_cons_cons, List.getLast?_cons_cons]
      exact hBlast

end BeamVerify

namespace BeamVerify

lemma tsCalculateValue_mk (l l1 r1 w r3 x mn : ℚ) :
    tsCalculateValue l l1 r1 w r3 ⟨x, mn⟩ =
      if x = 0 then ⟨x + l/100, -(l/100)⟩
      else if |x - l1| ≤ l/100 ∧ x - l1 < 0 then ⟨l1, x⟩
      else if x < l1 ∧ x ≠ r1/w ∧ mn ≠ r1/w ∧ |x - r1/w| ≤ l/100 then ⟨r1/w, x⟩
      else if |x - l| < l/100 then ⟨l, mn⟩
      else if x > l1 ∧ x ≠ l - r3/w ∧ mn ≠ l - r3/w ∧ |x - (l - r3/w)| < l/100 then
        ⟨l - r3/w, x⟩
      else if x = r1/w ∨ x = l - r3/w then ⟨mn + l/100, x⟩
      else ⟨x + l/100, 0⟩ := rfl

lemma runLoopIdx_mk_succ (l : ℚ) (next : LoopState → LoopState) (val : ℕ → ℚ → ℚ)
    (x mn : ℚ) (i n : ℕ) :
    runLoopIdx l next val ⟨x, mn⟩ i (n+1)
      = if x ≤ l then
          (x, val i x) ::
            (if x = l then [] else runLoopIdx l next val (next ⟨x, mn⟩) (i+1) n)
        else [] := rfl

lemma bendingMomentSamples_eq (beam : Beam) (load : ℚ) :
    twoSpanUnequal.bendingMomentSamples beam load
      = runLoop (beam.primarySpan + beam.secondarySpan)
          (tsCalculateValue (beam.primarySpan + beam.secondarySpan) beam.primarySpan
            (twoSpanReactions load beam.primarySpan beam.secondarySpan).r1 load
            (twoSpanReactions load beam.primarySpan beam.secondarySpan).r3)
          (fun s => calculateRoundedValue (beam.primarySpan + beam.secondarySpan)
            beam.primarySpan
            (twoSpanReactions load beam.primarySpan beam.secondarySpan).r1 load
            (twoSpanReactions load beam.primarySpan beam.secondarySpan).r2 s.x)
          ⟨0, 0⟩ loopFuel := rfl

lemma deflectionSamples_eq (beam : Beam) (load : ℚ) :
    twoSpanUnequal.deflectionSamples beam load
      = runLoopIdx (beam.primarySpan + beam.secondarySpan)
          (tsCalculateValue (beam.primarySpan + beam.secondarySpan) beam.primarySpan
            (twoSpanReactions load beam.primarySpan beam.secondarySpan).r1 load
            (twoSpanReactions load beam.primarySpan beam.secondarySpan).r3)
          (fun i x => if i ≤ 11 then
              calculatePoint1 beam.material.EI
                (twoSpanReactions load beam.primarySpan beam.secondarySpan).r1 load
                beam.primarySpan beam.j2 x
            else
              calculatePoint2
                (twoSpanReactions load beam.primarySpan beam.secondarySpan).r1
                (twoSpanReactions load beam.primarySpan beam.secondarySpan).r2
                beam.primarySpan load beam.material.EI beam.j2 x)
          ⟨0, 0⟩ 0 loopFuel := rfl

lemma runLoop_get?_zero (l : ℚ) (next : LoopState → LoopState) (val : LoopState → ℚ)
    (x mn : ℚ) (n : ℕ) (hx : x ≤ l) :
    (runLoop l next val ⟨x, mn⟩ (n+1)).get? 0 = some (x, val ⟨x, mn⟩) := by
  rw [runLoop_mk_succ, if_pos hx, List.get?_cons_zero]

lemma runLoop_get?_succ (l : ℚ) (next : LoopState → LoopState) (val : LoopState → ℚ)
    (x mn : ℚ) (n k : ℕ) (hx : x ≤ l) (hne : x ≠ l) :
    (runLoop l next val ⟨x, mn⟩ (n+1)).get? (k+1)
      = (runLoop l next val (next ⟨x, mn⟩) n).get? k := by
  rw [runLoop_mk_succ, if_pos hx, if_neg hne, List.get?_cons_succ]

lemma getShearForceEquation_xdata (beam : Beam) (load : ℚ) :
    (twoSpanUnequal.getShearForceEquation beam load).xdata
      = (twoSpanUnequal.shearForceSamples beam load).map (fun p => round2 p.1) := rfl

lemma getBendingMomentEquation_xdata (beam : Beam) (load : ℚ) :
    (twoSpanUnequal.getBendingMomentEquation beam load).xdata
      = (twoSpanUnequal.bendingMomentSamples beam load).map (fun p => round2 p.1) := rfl

lemma ssDeflection_xdata (beam : Beam) (load : ℚ) :
    (simplySupported.getDeflectionEquation beam load).xdata
      = (ssPositions beam.primarySpan).map round2 := rfl

lemma chain'_rel_of_get? {α : Type} {R : α → α → Prop} :
    ∀ (l : List α) (i : ℕ) (a b : α), List.Chain' R l →
      l.get? i = some a → l.get? (i+1) = some b → R a b := by
  intro l
  induction l with
  | nil => intro i a b _ h; simp at h
  | cons hd tl ih =>
    intro i a b hch h1 h2
    match i with
    | 0 =>
      rw [List.get?_cons_zero, Option.some_inj] at h1
      subst h1
      rw [List.get?_cons_succ] at h2
      apply (List.chain'_cons'.mp hch).1
      cases tl with
      | nil => simp at h2
      | cons c t =>
        rw [List.get?_cons_zero, Option.some_inj] at h2
        subst h2
        simp
    | i+1 =>
      rw [List.get?_cons_succ] at h1 h2
      exact ih i a b (List.chain'_cons'.mp hch).2 h1 h2

set_option maxHeartbeats 1000000 in
/-- C3 (amended): every curve of either analyzer has `xdata` and `ydata` of
equal length.  The simply-supported sampling grid and the two-span
shear-force samples are monotone from `0` to the total length, with both
endpoints present.  The two-span deflection and bending-moment traces start
at position `0`; their `xdata` need not be monotone (see the
counterexample). -/
theorem C3_curve_shape (beam : Beam) (load : ℚ)
    (hp : 0 < beam.primarySpan) (hs : 0 < beam.secondarySpan) :
    ((simplySupported.getDeflectionEquation beam load).xdata.length
        = (simplySupported.getDeflectionEquation beam load).ydata.length) ∧
    ((simplySupported.getBendingMomentEquation beam load).xdata.length
        = (simplySupported.getBendingMomentEquation beam load).ydata.length) ∧
    ((simplySupported.getShearForceEquation beam load).xdata.length
        = (simplySupported.getShearForceEquation beam load).ydata.length) ∧
    ((twoSpanUnequal.getDeflectionEquation beam load).xdata.length
        = (twoSpanUnequal.getDeflectionEquation beam load).ydata.length) ∧
    ((twoSpanUnequal.getBendingMomentEquation beam load).xdata.length
        = (twoSpanUnequal.getBendingMomentEquation beam load).ydata.length) ∧
    ((twoSpanUnequal.getShearForceEquation beam load).xdata.length
        = (twoSpanUnequal.getShearForceEquation beam load).ydata.length) ∧
    List.Chain' (· ≤ ·) (ssPositions beam.primarySpan) ∧
    (ssPositions beam.primarySpan).head? = some 0 ∧
    (ssPositions beam.primarySpan).getLast? = some beam.primarySpan ∧
    List.Chain' (· ≤ ·) ((simplySupported.getDeflectionEquation beam load).xdata) ∧
    ((twoSpanUnequal.shearForceSamples beam load ≠ []) ∧
     (((twoSpanUnequal.shearForceSamples beam load).head?).map Prod.fst = some 0) ∧
     (((twoSpanUnequal.shearForceSamples beam load).getLast?).map Prod.fst
        = some (beam.primarySpan + beam.secondarySpan)) ∧
     List.Chain' (fun p q : ℚ × ℚ => p.1 ≤ q.1)
       (twoSpanUnequal.shearForceSamples beam load) ∧
     List.Chain' (· ≤ ·) ((twoSpanUnequal.getShearForceEquation beam load).xdata)) ∧
    (((twoSpanUnequal.bendingMomentSamples beam load).head?).map Prod.fst = some 0) ∧
    (((twoSpanUnequal.deflectionSamples beam load).head?).map Prod.fst = some 0) := by
  have hL : (0:ℚ) ≤ beam.primarySpan + beam.secondarySpan := by linarith
  have hLne : (0:ℚ) ≠ beam.primarySpan + beam.secondarySpan := by
    intro h; rw [← h] at hL; linarith
  obtain ⟨T, hT, hTne, hThead, hTlast, hTchain⟩ :=
    shRun_allcases beam.primarySpan beam.secondarySpan
      (twoSpanReactions load beam.primarySpan beam.secondarySpan).r1
      (twoSpanReactions load beam.primarySpan beam.secondarySpan).r2 load hp hs
  have hsam : twoSpanUnequal.shearForceSamples beam load = T := by
    rw [shearForceSamples_eq, show loopFuel = 206 from rfl]
    exact hT
  refine ⟨by simp [simplySupported.getDeflectionEquation],
    by simp [simplySupported.getBendingMomentEquation],
    by simp [simplySupported.getShearForceEquation],
    by simp [twoSpanUnequal.getDeflectionEquation],
    by simp [twoSpanUnequal.getBendingMomentEquation],
    by simp [twoSpanUnequal.getShearForceEquation],
    ssPositions_chain beam.primarySpan hp, ?_, ssPositions_getLast? _ hp, ?_,
    ⟨?_, ?_, ?_, ?_, ?_⟩, ?_, ?_⟩
  · have h := ssPositions_get? beam.primarySpan hp 0 (by omega)
    simp only [Nat.cast_zero, zero_mul] at h
    rw [List.get?_zero] at h
    exact h
  · rw [ssDeflection_xdata]
    exact List.chain'_map_of_chain' round2 (fun a b h => round2_mono h)
      (ssPositions_chain beam.primarySpan hp)
  · rw [hsam]; exact hTne
  · rw [hsam]; exact hThead
  · rw [hsam]; exact hTlast
  · rw [hsam]; exact hTchain
  · rw [getShearForceEquation_xdata, hsam]
    exact List.chain'_map_of_chain' (fun p : ℚ × ℚ => round2 p.1)
      (fun a b h => round2_mono h) hTchain
  · rw [bendingMomentSamples_eq, show loopFuel = 205 + 1 from rfl, runLoop_mk_succ,
      if_pos hL]
    simp
  · rw [deflectionSamples_eq, show loopFuel = 205 + 1 from rfl, runLoopIdx_mk_succ,
      if_pos hL]
    simp

/-- Witness for the amended C3 at the concrete two-span beam `(5, 5)`,
`load = 1`. -/
theorem C3_curve_shape_witness :
    (0:ℚ) < (Beam.mk 5 5 ⟨"steel", 1⟩ 1).primarySpan ∧
    (0:ℚ) < (Beam.mk 5 5 ⟨"steel", 1⟩ 1).secondarySpan ∧
    List.Chain' (· ≤ ·) (ssPositions (Beam.mk 5 5 ⟨"steel", 1⟩ 1).primarySpan) :=
  ⟨by norm_num, by norm_num,
   (C3_curve_shape (Beam.mk 5 5 ⟨"steel", 1⟩ 1) 1 (by norm_num)
      (by norm_num)).2.2.2.2.2.2.1⟩

end BeamVerify

namespace BeamVerify

/-- C3 as literally stated is false: for the two-span beam `l1 = 10`,
`l2 = 23`, `w = 1` the zero-shear critical point `r1/w = 1/80` lies within
one nominal step (`0.33`) of the second sample `0.33`, so the bending-moment
loop snaps backwards and emits positions `0, 0.33, 0.0125, ...`; the
displayed `xdata` `0, 0.33, 0.01, ...` is not monotonically non-decreasing. -/
theorem C3_counterexample :
    ¬ List.Chain' (· ≤ ·)
      ((twoSpanUnequal.getBendingMomentEquation (Beam.mk 10 23 ⟨"steel", 1⟩ 1) 1).xdata) := by
  intro hch
  have hr1 : (twoSpanReactions 1 10 23).r1 = 1/80 := by
    norm_num [twoSpanReactions]
  have hr3 : (twoSpanReactions 1 10 23).r3 = 1717/184 := by
    norm_num [twoSpanReactions]
  have hn0 : tsCalculateValue (10+23) 10 (twoSpanReactions 1 10 23).r1 1
      (twoSpanReactions 1 10 23).r3 ⟨0, 0⟩ = ⟨33/100, -(33/100)⟩ := by
    rw [tsCalculateValue_mk, if_pos rfl]
    simp only [LoopState.mk.injEq]
    norm_num
  have hn1 : tsCalculateValue (10+23) 10 (twoSpanReactions 1 10 23).r1 1
      (twoSpanReactions 1 10 23).r3 ⟨33/100, -(33/100)⟩ = ⟨1/80, 33/100⟩ := by
    rw [tsCalculateValue_mk, hr1, hr3]
    rw [if_neg (by norm_num),
      if_neg (by rintro ⟨habs, -⟩
                 rw [abs_of_nonpos (by norm_num)] at habs
                 norm_num at habs),
      if_pos ⟨by norm_num, by norm_num, by norm_num,
        by rw [abs_of_nonneg (by norm_num)]; norm_num⟩]
    simp only [LoopState.mk.injEq]
    norm_num
  have hxd : (twoSpanUnequal.getBendingMomentEquation (Beam.mk 10 23 ⟨"steel", 1⟩ 1) 1).xdata
      = (twoSpanUnequal.bendingMomentSamples (Beam.mk 10 23 ⟨"steel", 1⟩ 1) 1).map
          (fun p => round2 p.1) := rfl
  have hs1 : ((twoSpanUnequal.getBendingMomentEquation (Beam.mk 10 23 ⟨"steel", 1⟩ 1)
      1).xdata).get? 1 = some (33/100) := by
    rw [hxd, List.get?_map, bendingMomentSamples_eq]
    rw [show loopFuel = 204 + 1 + 1 from rfl]
    rw [runLoop_get?_succ _ _ _ _ _ _ 0 (by norm_num) (by norm_num)]
    rw [hn0]
    rw [runLoop_get?_zero _ _ _ _ _ _ (by norm_num)]
    simp only [Option.map_some']
    norm_num [round2]
  have hs2 : ((twoSpanUnequal.getBendingMomentEquation (Beam.mk 10 23 ⟨"steel", 1⟩ 1)
      1).xdata).get? 2 = some (1/100) := by
    rw [hxd, List.get?_map, bendingMomentSamples_eq]
    rw [show loopFuel = 203 + 1 + 1 + 1 from rfl]
    rw [runLoop_get?_succ _ _ _ _ _ _ 1 (by norm_num) (by norm_num)]
    rw [hn0]
    rw [runLoop_get?_succ _ _ _ _ _ _ 0 (by norm_num) (by norm_num)]
    rw [hn1]
    rw [runLoop_get?_zero _ _ _ _ _ _ (by norm_num)]
    simp only [Option.map_some']
    norm_num [round2]
  have := chain'_rel_of_get? _ 1 (33/100) (1/100) hch hs1 hs2
  norm_num at this

end BeamVerify

/-! ## Termination of the two-span stepping loops (claim C9) -/

namespace BeamVerify

/-- The run from state `s` with fuel `n` finishes with a sample at position
`l` (the loop reached the right end and stopped there). -/
def endsAtL (l : ℚ) (next : LoopState → LoopState) (val : LoopState → ℚ)
    (s : LoopState) (n : ℕ) : Prop :=
  ((runLoop l next val s n).getLast?).map Prod.fst = some l

lemma endsAtL_stop (l : ℚ) (next : LoopState → LoopState) (val : LoopState → ℚ)
    (s : LoopState) (n : ℕ) (h : s.x = l) : endsAtL l next val s (n+1) := by
  obtain ⟨x, mn, rfl⟩ : ∃ x mn, s = ⟨x, mn⟩ := ⟨s.x, s.mem, rfl⟩
  simp only [LoopState.mk.injEq] at h
  subst h
  rw [endsAtL, runLoop_mk_succ, if_pos le_rfl, if_pos rfl]
  simp

lemma endsAtL_step (l : ℚ) (next : LoopState → LoopState) (val : LoopState → ℚ)
    (s : LoopState) (n : ℕ) (hx : s.x ≤ l) (hne : s.x ≠ l)
    (h : endsAtL l next val (next s) n) : endsAtL l next val s (n+1) := by
  obtain ⟨x, mn, rfl⟩ : ∃ x mn, s = ⟨x, mn⟩ := ⟨s.x, s.mem, rfl⟩
  rw [endsAtL, runLoop_mk_succ, if_pos hx, if_neg hne]
  rw [endsAtL] at h
  have hne' : runLoop l next val (next ⟨x, mn⟩) n ≠ [] := by
    intro hnil
    rw [hnil] at h
    simp at h
  obtain ⟨c, t, hct⟩ := List.exists_cons_of_ne_nil hne'
  rw [hct, List.getLast?_cons_cons]
  rw [hct] at h
  exact h

lemma endsAtL_mono (l : ℚ) (next : LoopState → LoopState) (val : LoopState → ℚ) :
    ∀ (n m : ℕ) (s : LoopState), n ≤ m → endsAtL l next val s n →
      endsAtL l next val s m := by
  intro n
  induction n with
  | zero =>
    intro m s _ h
    rw [endsAtL, runLoop] at h
    simp at h
  | succ n ih =>
    intro m s hnm h
    obtain ⟨x, mn, rfl⟩ : ∃ x mn, s = ⟨x, mn⟩ := ⟨s.x, s.mem, rfl⟩
    obtain ⟨m', rfl⟩ : ∃ m', m = m' + 1 := ⟨m - 1, by omega⟩
    rw [endsAtL, runLoop_mk_succ] at h
    by_cases hxl : x ≤ l
    · rw [if_pos hxl] at h
      by_cases hstop : x = l
      · exact endsAtL_stop l next val ⟨x, mn⟩ m' hstop
      · rw [if_neg hstop] at h
        have htail : endsAtL l next val (next ⟨x, mn⟩) n := by
          rw [endsAtL]
          have hne' : runLoop l next val (next ⟨x, mn⟩) n ≠ [] := by
            intro hnil
            rw [hnil] at h
            simp at h
            exact hstop h
          obtain ⟨c, t, hct⟩ := List.exists_cons_of_ne_nil hne'
          rw [hct] at h ⊢
          rw [List.getLast?_cons_cons] at h
          exact h
        exact endsAtL_step l next val ⟨x, mn⟩ m' hxl hstop
          (ih m' (next ⟨x, mn⟩) (by omega) htail)
    · rw [if_neg hxl] at h
      simp at h

lemma getLast?_map_fst (L : List (ℚ × ℚ)) :
    (L.map Prod.fst).getLast? = (L.getLast?).map Prod.fst := by
  induction L with
  | nil => rfl
  | cons a t ih =>
    cases t with
    | nil => rfl
    | cons b t' =>
      rw [List.map_cons, List.map_cons, List.getLast?_cons_cons,
        List.getLast?_cons_cons, ← List.map_cons, ih]

lemma runLoopIdx_map_fst (l : ℚ) (next : LoopState → LoopState)
    (val2 : ℕ → ℚ → ℚ) (val : LoopState → ℚ) :
    ∀ (n : ℕ) (s : LoopState) (i : ℕ),
      (runLoopIdx l next val2 s i n).map Prod.fst
        = (runLoop l next val s n).map Prod.fst := by
  intro n
  induction n with
  | zero => intro s i; rfl
  | succ n ih =>
    intro s i
    obtain ⟨x, mn, rfl⟩ : ∃ x mn, s = ⟨x, mn⟩ := ⟨s.x, s.mem, rfl⟩
    rw [runLoopIdx_mk_succ, runLoop_mk_succ]
    by_cases hxl : x ≤ l
    · rw [if_pos hxl, if_pos hxl, List.map_cons, List.map_cons]
      by_cases hstop : x = l
      · rw [if_pos hstop, if_pos hstop]
      · rw [if_neg hstop, if_neg hstop, ih]
    · rw [if_neg hxl, if_neg hxl]

/-- The span-1 zero-shear abscissa `r1/w` in closed geometric form. -/
lemma r1w_eq (l1 l2 w : ℚ) (h1 : 0 < l1) (h2 : 0 < l2) (hw : w ≠ 0) :
    (twoSpanReactions w l1 l2).r1 / w
      = l1/2 - (l1^3 + l2^3)/(8*l1*(l1+l2)) := by
  have hL : l1 + l2 ≠ 0 := by positivity
  simp only [twoSpanReactions]
  field_simp
  ring

/-- The span-2 zero-shear abscissa `l - r3/w` in closed geometric form. -/
lemma r3w_eq (l1 l2 w : ℚ) (h1 : 0 < l1) (h2 : 0 < l2) (hw : w ≠ 0) :
    (twoSpanReactions w l1 l2).r3 / w
      = l2/2 - (l1^3 + l2^3)/(8*l2*(l1+l2)) := by
  have hL : l1 + l2 ≠ 0 := by positivity
  simp only [twoSpanReactions]
  field_simp
  ring

lemma z1_lt_half (l1 l2 w : ℚ) (h1 : 0 < l1) (h2 : 0 < l2) (hw : w ≠ 0) :
    (twoSpanReactions w l1 l2).r1 / w < l1/2 := by
  rw [r1w_eq l1 l2 w h1 h2 hw]
  have hpos : 0 < (l1^3 + l2^3)/(8*l1*(l1+l2)) := by positivity
  linarith

lemma z2_gt (l1 l2 w : ℚ) (h1 : 0 < l1) (h2 : 0 < l2) (hw : w ≠ 0) :
    l1 + l2/2 < (l1 + l2) - (twoSpanReactions w l1 l2).r3 / w := by
  rw [r3w_eq l1 l2 w h1 h2 hw]
  have hpos : 0 < (l1^3 + l2^3)/(8*l2*(l1+l2)) := by positivity
  linarith

end BeamVerify

namespace BeamVerify

/-- `cubicOK a b c d` : the integer arithmetic fact behind the rational-root
exclusion for the cubic `a t^3 + b t^2 + c t + d`. -/
def cubicOK (a b c d : ℤ) : Prop :=
  ∀ p q : ℕ, 0 < p → 0 < q → (p:ℤ) ∣ d → (q:ℤ) ∣ a →
    a*(p:ℤ)^3 + b*(p:ℤ)^2*(q:ℤ) + c*(p:ℤ)*(q:ℤ)^2 + d*(q:ℤ)^3 ≠ 0

set_option maxRecDepth 8000 in
set_option maxHeartbeats 4000000 in
lemma famA1_decide : ∀ j : ℕ, j < 101 → ∀ p ∈ ((2*(j:ℤ) - 75).natAbs).divisors,
    ∀ q ∈ (Int.natAbs 25).divisors,
    (25:ℤ)*(p:ℤ)^3 + 2*(j:ℤ)*(p:ℤ)^2*(q:ℤ) + (4*(j:ℤ)-100)*(p:ℤ)*(q:ℤ)^2
      + (2*(j:ℤ)-75)*(q:ℤ)^3 ≠ 0 := by
  decide

set_option maxRecDepth 8000 in
set_option maxHeartbeats 4000000 in
lemma famA2_decide : ∀ j : ℕ, j < 101 → ∀ q ∈ ((125 - 2*(j:ℤ)).natAbs).divisors,
    ∀ p ∈ (Int.natAbs 25).divisors,
    (125 - 2*(j:ℤ))*(p:ℤ)^3 + (300 - 4*(j:ℤ))*(p:ℤ)^2*(q:ℤ)
      + (200 - 2*(j:ℤ))*(p:ℤ)*(q:ℤ)^2 + 25*(q:ℤ)^3 ≠ 0 := by
  decide

set_option maxRecDepth 8000 in
set_option maxHeartbeats 4000000 in
lemma famA3_decide : ∀ j : ℕ, j < 101 → ∀ q ∈ ((125 - 2*(j:ℤ)).natAbs).divisors,
    ∀ p ∈ (Int.natAbs 25).divisors,
    (125 - 2*(j:ℤ))*(p:ℤ)^3 + (100 - 4*(j:ℤ))*(p:ℤ)^2*(q:ℤ)
      - 2*(j:ℤ)*(p:ℤ)*(q:ℤ)^2 + 25*(q:ℤ)^3 ≠ 0 := by
  decide

lemma A1_cubicOK (j : ℕ) (hj : j ≤ 100) :
    cubicOK 25 (2*(j:ℤ)) (4*(j:ℤ)-100) (2*(j:ℤ)-75) := by
  intro p q hp hq hpd hqa
  have hd : (2*(j:ℤ) - 75) ≠ 0 := by omega
  have hpd' : p ∣ (2*(j:ℤ) - 75).natAbs := by
    have := Int.natAbs_dvd_natAbs.mpr hpd
    simpa using this
  have hqa' : q ∣ (25:ℤ).natAbs := by
    have := Int.natAbs_dvd_natAbs.mpr hqa
    simpa using this
  exact famA1_decide j (by omega) p
    (Nat.mem_divisors.mpr ⟨hpd', Int.natAbs_ne_zero.mpr hd⟩) q
    (Nat.mem_divisors.mpr ⟨hqa', by norm_num⟩)

lemma A2_cubicOK (j : ℕ) (hj : j ≤ 100) :
    cubicOK (125 - 2*(j:ℤ)) (300 - 4*(j:ℤ)) (200 - 2*(j:ℤ)) 25 := by
  intro p q hp hq hpd hqa
  have ha : (125 - 2*(j:ℤ)) ≠ 0 := by omega
  have hpd' : p ∣ (25:ℤ).natAbs := by
    have := Int.natAbs_dvd_natAbs.mpr hpd
    simpa using this
  have hqa' : q ∣ (125 - 2*(j:ℤ)).natAbs := by
    have := Int.natAbs_dvd_natAbs.mpr hqa
    simpa using this
  exact famA2_decide j (by omega) q
    (Nat.mem_divisors.mpr ⟨hqa', Int.natAbs_ne_zero.mpr ha⟩) p
    (Nat.mem_divisors.mpr ⟨hpd', by norm_num⟩)

lemma A3_cubicOK (j : ℕ) (hj : j ≤ 100) :
    cubicOK (125 - 2*(j:ℤ)) (100 - 4*(j:ℤ)) (-(2*(j:ℤ))) 25 := by
  intro p q hp hq hpd hqa
  have ha : (125 - 2*(j:ℤ)) ≠ 0 := by omega
  have hpd' : p ∣ (25:ℤ).natAbs := by
    have := Int.natAbs_dvd_natAbs.mpr hpd
    simpa using this
  have hqa' : q ∣ (125 - 2*(j:ℤ)).natAbs := by
    have := Int.natAbs_dvd_natAbs.mpr hqa
    simpa using this
  have := famA3_decide j (by omega) q
    (Nat.mem_divisors.mpr ⟨hqa', Int.natAbs_ne_zero.mpr ha⟩) p
    (Nat.mem_divisors.mpr ⟨hpd', by norm_num⟩)
  intro h
  apply this
  linarith

/-- A cubic with integer coefficients passing the `cubicOK` divisor check has
no positive rational root. -/
lemma cubicOK_no_pos_root (a b c d : ℤ) (hOK : cubicOK a b c d)
    (t : ℚ) (ht : 0 < t) :
    (a:ℚ)*t^3 + (b:ℚ)*t^2 + (c:ℚ)*t + (d:ℚ) ≠ 0 := by
  intro heq
  set n : ℤ := t.num with hn
  set q : ℕ := t.den with hq
  have hnpos : 0 < n := Rat.num_pos.mpr ht
  have hqpos : 0 < q := t.pos
  have hqQ : ((q:ℚ)) ≠ 0 := by
    exact_mod_cast Nat.pos_iff_ne_zero.mp hqpos
  have ht' : t = (n:ℚ) / (q:ℚ) := (Rat.num_div_den t).symm
  have hEq : ((a*n^3 + b*n^2*(q:ℤ) + c*n*(q:ℤ)^2 + d*(q:ℤ)^3 : ℤ) : ℚ) = 0 := by
    push_cast
    have hfac : (a:ℚ)*(n:ℚ)^3 + (b:ℚ)*(n:ℚ)^2*(q:ℚ) + (c:ℚ)*(n:ℚ)*(q:ℚ)^2
        + (d:ℚ)*(q:ℚ)^3
        = ((a:ℚ)*t^3 + (b:ℚ)*t^2 + (c:ℚ)*t + (d:ℚ)) * (q:ℚ)^3 := by
      rw [ht']
      field_simp
      ring
    rw [hfac, heq, zero_mul]
  have hE : a*n^3 + b*n^2*(q:ℤ) + c*n*(q:ℤ)^2 + d*(q:ℤ)^3 = 0 := by
    exact_mod_cast hEq
  have hcop : IsCoprime n (q:ℤ) := by
    rw [Int.isCoprime_iff_gcd_eq_one]
    simpa [Int.gcd] using t.reduced
  have hdvd_n : n ∣ d * (q:ℤ)^3 := by
    refine ⟨-(a*n^2 + b*n*(q:ℤ) + c*(q:ℤ)^2), ?_⟩
    linear_combination hE
  have hdvd_nd : n ∣ d := (hcop.pow_right).dvd_of_dvd_mul_right hdvd_n
  have hdvd_q : (q:ℤ) ∣ a * n^3 := by
    refine ⟨-(b*n^2 + c*n*(q:ℤ) + d*(q:ℤ)^2), ?_⟩
    linear_combination hE
  have hdvd_qa : (q:ℤ) ∣ a := (hcop.symm.pow_right).dvd_of_dvd_mul_right hdvd_q
  have hnn : ((n.natAbs : ℤ)) = n := Int.natAbs_of_nonneg hnpos.le
  refine hOK n.natAbs q (Int.natAbs_pos.mpr (ne_of_gt hnpos)) hqpos ?_ hdvd_qa ?_
  · rw [hnn]
    exact hdvd_nd
  · rw [hnn]
    exact hE

end BeamVerify

namespace BeamVerify

/-- The span-1 critical point `r1/w` never coincides with a sampling-grid
point `j * l/100`. -/
lemma z1_ne_grid (l1 l2 w : ℚ) (h1 : 0 < l1) (h2 : 0 < l2) (hw : w ≠ 0)
    (j : ℕ) (hj : j ≤ 100) :
    (twoSpanReactions w l1 l2).r1 / w ≠ (j:ℚ) * ((l1+l2)/100) := by
  rw [r1w_eq l1 l2 w h1 h2 hw]
  intro heq
  refine cubicOK_no_pos_root 25 (2*(j:ℤ)) (4*(j:ℤ)-100) (2*(j:ℤ)-75)
    (A1_cubicOK j hj) (l2/l1) (by positivity) ?_
  push_cast
  have hl1 : l1 ≠ 0 := ne_of_gt h1
  have hll : l1 + l2 ≠ 0 := by positivity
  field_simp at heq
  field_simp
  linear_combination (-(l1^3) * (1/8 : ℚ)) * heq

/-- The span-2 critical point `l - r3/w` never coincides with an unshifted
grid point `j * l/100`. -/
lemma z2_ne_grid (l1 l2 w : ℚ) (h1 : 0 < l1) (h2 : 0 < l2) (hw : w ≠ 0)
    (j : ℕ) (hj : j ≤ 100) :
    (l1 + l2) - (twoSpanReactions w l1 l2).r3 / w ≠ (j:ℚ) * ((l1+l2)/100) := by
  rw [r3w_eq l1 l2 w h1 h2 hw]
  intro heq0
  have hl1 : l1 ≠ 0 := ne_of_gt h1
  have hl2 : l2 ≠ 0 := ne_of_gt h2
  have hll : l1 + l2 ≠ 0 := by positivity
  have heq : l1 + l2/2 + (l1^3 + l2^3)/(8*l2*(l1+l2)) = (j:ℚ) * ((l1+l2)/100) := by
    linarith [heq0]
  refine cubicOK_no_pos_root (125-2*(j:ℤ)) (300-4*(j:ℤ)) (200-2*(j:ℤ)) 25
    (A2_cubicOK j hj) (l2/l1) (by positivity) ?_
  push_cast
  field_simp at heq
  field_simp
  linear_combination (l1^3 * (1/8 : ℚ)) * heq

/-- The span-2 critical point `l - r3/w` never coincides with a shifted grid
point `l1 + j * l/100`. -/
lemma z2_ne_grid_shifted (l1 l2 w : ℚ) (h1 : 0 < l1) (h2 : 0 < l2) (hw : w ≠ 0)
    (j : ℕ) (hj : j ≤ 100) :
    (l1 + l2) - (twoSpanReactions w l1 l2).r3 / w
      ≠ l1 + (j:ℚ) * ((l1+l2)/100) := by
  rw [r3w_eq l1 l2 w h1 h2 hw]
  intro heq0
  have hl1 : l1 ≠ 0 := ne_of_gt h1
  have hl2 : l2 ≠ 0 := ne_of_gt h2
  have hll : l1 + l2 ≠ 0 := by positivity
  have heq : l1 + l2/2 + (l1^3 + l2^3)/(8*l2*(l1+l2))
      = l1 + (j:ℚ) * ((l1+l2)/100) := by
    linarith [heq0]
  refine cubicOK_no_pos_root (125-2*(j:ℤ)) (100-4*(j:ℤ)) (-(2*(j:ℤ))) 25
    (A3_cubicOK j hj) (l2/l1) (by positivity) ?_
  push_cast
  field_simp at heq
  field_simp
  linear_combination (l1^3 * (1/8 : ℚ)) * heq

end BeamVerify

/-! ## Termination walk for the two-span stepping loop (claim C9) -/

namespace BeamVerify

/-! ## The span-2 walk -/

/-- Span-2 walk: from a grid position strictly right of the middle support,
the stepping loop of the deflection/bending-moment generators reaches `l`
and stops there. -/
lemma tsWalk2 (l1 l2 r1 r3 w : ℚ) (h1 : 0 < l1) (h2 : 0 < l2)
    (val : LoopState → ℚ)
    (hz1half : r1/w < l1/2) (hz2half : l1 + l2/2 < (l1 + l2) - r3/w)
    (hE2 : ∀ j : ℕ, j ≤ 100 → (l1 + l2) - r3/w ≠ (j:ℚ) * ((l1+l2)/100))
    (hE3 : ∀ j : ℕ, j ≤ 100 → (l1 + l2) - r3/w ≠ l1 + (j:ℚ) * ((l1+l2)/100)) :
    ∀ K : ℕ, ∀ x mn : ℚ, ∀ n : ℕ,
      (∃ i : ℕ, i ≤ 100 ∧ (x = (i:ℚ)*((l1+l2)/100) ∨ x = l1 + (i:ℚ)*((l1+l2)/100))) →
      l1 < x → x ≤ l1 + l2 →
      l1 + l2 - x ≤ (K:ℚ)*((l1+l2)/100) →
      2*K + 2 ≤ n →
      endsAtL (l1+l2) (tsCalculateValue (l1+l2) l1 r1 w r3) val ⟨x, mn⟩ n := by
  have hst : 0 < (l1+l2)/100 := by positivity
  have hl100 : l1 + l2 = 100 * ((l1+l2)/100) := by ring
  intro K
  induction K with
  | zero =>
    intro x mn n hgrid hx1 hxl hK hn
    have hxeq : x = l1 + l2 := by
      have : (0:ℚ) * ((l1+l2)/100) = 0 := by ring
      push_cast at hK
      linarith
    obtain ⟨n', rfl⟩ : ∃ n', n = n' + 1 := ⟨n - 1, by omega⟩
    exact endsAtL_stop _ _ _ _ _ hxeq
  | succ K ih =>
    intro x mn n hgrid hx1 hxl hK hn
    by_cases hxeq : x = l1 + l2
    · obtain ⟨n', rfl⟩ : ∃ n', n = n' + 1 := ⟨n - 1, by omega⟩
      exact endsAtL_stop _ _ _ _ _ hxeq
    have hxlt : x < l1 + l2 := lt_of_le_of_ne hxl hxeq
    obtain ⟨i, hi100, hgr⟩ := hgrid
    -- the grid point is never a critical point
    have hxz2 : x ≠ (l1 + l2) - r3/w := by
      rcases hgr with h | h
      · rw [h]; exact fun hc => hE2 i hi100 hc.symm
      · rw [h]; exact fun hc => hE3 i hi100 hc.symm
    have hxz1 : x ≠ r1/w := by
      intro hc
      rw [← hc] at hz1half
      linarith
    -- obtain the fuel successor twice
    obtain ⟨n', rfl⟩ : ∃ n', n = n' + 2 := ⟨n - 2, by omega⟩
    by_cases hb4 : |x - (l1+l2)| < (l1+l2)/100
    · -- snap to l and stop
      have hnext : tsCalculateValue (l1+l2) l1 r1 w r3 ⟨x, mn⟩ = ⟨l1+l2, mn⟩ := by
        rw [tsCalculateValue_mk, if_neg (by intro hc; rw [hc] at hx1; linarith),
          if_neg (by rintro ⟨-, hlt⟩; linarith), if_neg (by rintro ⟨hlt, -⟩; linarith),
          if_pos hb4]
      refine endsAtL_mono _ _ _ 2 (n'+2) _ (by omega) ?_
      refine endsAtL_step _ _ _ _ _ (by exact hxl) hxeq ?_
      rw [hnext]
      exact endsAtL_stop _ _ _ ⟨l1+l2, mn⟩ 0 rfl
    · -- at least one full step from l
      have hfar : (l1+l2)/100 ≤ (l1+l2) - x := by
        rw [abs_sub_lt_iff, not_and_or] at hb4
        push_neg at hb4
        rcases hb4 with h | h
        · linarith
        · linarith
      have hxstep : x + (l1+l2)/100 ≤ l1 + l2 := by linarith
      -- the advanced position is a grid point again
      have hgrow : ∃ i' : ℕ, i' ≤ 100 ∧
          (x + (l1+l2)/100 = (i':ℚ)*((l1+l2)/100) ∨
            x + (l1+l2)/100 = l1 + (i':ℚ)*((l1+l2)/100)) := by
        refine ⟨i+1, ?_, ?_⟩
        · by_contra hcon
          have hi : i = 100 := by omega
          subst hi
          rcases hgr with h | h
          · rw [h] at hxlt
            push_cast at hxlt
            linarith
          · rw [h] at hxstep
            push_cast at hxstep
            linarith
        · rcases hgr with h | h
          · left; rw [h]; push_cast; ring
          · right; rw [h]; push_cast; ring
      by_cases hb5 : mn ≠ (l1+l2) - r3/w ∧ |x - ((l1+l2) - r3/w)| < (l1+l2)/100
      · -- snap to z2, then bounce or finish
        have hnext : tsCalculateValue (l1+l2) l1 r1 w r3 ⟨x, mn⟩
            = ⟨(l1+l2) - r3/w, x⟩ := by
          rw [tsCalculateValue_mk, if_neg (by intro hc; rw [hc] at hx1; linarith),
            if_neg (by rintro ⟨-, hlt⟩; linarith), if_neg (by rintro ⟨hlt, -⟩; linarith),
            if_neg hb4, if_pos ⟨hx1, hxz2, hb5.1, hb5.2⟩]
        have hz2lt : (l1+l2) - r3/w < l1 + l2 := by
          have := abs_lt.mp hb5.2
          linarith [this.2]
        have hz2gt : l1 < (l1+l2) - r3/w := by linarith
        refine endsAtL_step _ _ _ ⟨x, mn⟩ _ hxl hxeq ?_
        rw [hnext]
        by_cases hb4' : |((l1+l2) - r3/w) - (l1+l2)| < (l1+l2)/100
        · -- z2 is within a step of l: snap to l and stop
          have hnext' : tsCalculateValue (l1+l2) l1 r1 w r3 ⟨(l1+l2) - r3/w, x⟩
              = ⟨l1+l2, x⟩ := by
            rw [tsCalculateValue_mk, if_neg (by intro hc; rw [hc] at hz2gt; linarith),
              if_neg (by rintro ⟨-, hlt⟩; linarith),
              if_neg (by rintro ⟨hlt, -⟩; linarith), if_pos hb4']
          refine endsAtL_mono _ _ _ 2 (n'+1) _ (by omega) ?_
          refine endsAtL_step _ _ _ _ _ (le_of_lt hz2lt) (ne_of_lt hz2lt) ?_
          rw [hnext']
          exact endsAtL_stop _ _ _ ⟨l1+l2, x⟩ 0 rfl
        · -- bounce off z2 back onto the grid, one net step forward
          have hnext' : tsCalculateValue (l1+l2) l1 r1 w r3 ⟨(l1+l2) - r3/w, x⟩
              = ⟨x + (l1+l2)/100, (l1+l2) - r3/w⟩ := by
            rw [tsCalculateValue_mk, if_neg (by intro hc; rw [hc] at hz2gt; linarith),
              if_neg (by rintro ⟨-, hlt⟩; linarith),
              if_neg (by rintro ⟨hlt, -⟩; linarith), if_neg hb4',
              if_neg (by rintro ⟨-, hne, -, -⟩; exact hne rfl),
              if_pos (Or.inr rfl)]
          refine endsAtL_step _ _ _ ⟨(l1+l2) - r3/w, x⟩ _ (le_of_lt hz2lt)
            (ne_of_lt hz2lt) ?_
          rw [hnext']
          refine ih (x + (l1+l2)/100) ((l1+l2) - r3/w) n' hgrow (by linarith)
            hxstep ?_ (by omega)
          push_cast at hK ⊢
          linarith
      · -- plain advance
        have hnext : tsCalculateValue (l1+l2) l1 r1 w r3 ⟨x, mn⟩
            = ⟨x + (l1+l2)/100, 0⟩ := by
          rw [tsCalculateValue_mk, if_neg (by intro hc; rw [hc] at hx1; linarith),
            if_neg (by rintro ⟨-, hlt⟩; linarith), if_neg (by rintro ⟨hlt, -⟩; linarith),
            if_neg hb4, if_neg (by rintro ⟨-, -, hmn, hwin⟩; exact hb5 ⟨hmn, hwin⟩),
            if_neg (by rintro (hc | hc); exact hxz1 hc; exact hxz2 hc)]
        refine endsAtL_step _ _ _ ⟨x, mn⟩ _ hxl hxeq ?_
        rw [hnext]
        refine ih (x + (l1+l2)/100) 0 (n'+1) hgrow (by linarith) hxstep ?_ (by omega)
        push_cast at hK ⊢
        linarith

end BeamVerify

namespace BeamVerify

/-- From the middle support `l1`, the stepping loop reaches `l` and stops
there (directly when the second span is shorter than one step, otherwise by
walking span 2). -/
lemma tsWalkL1 (l1 l2 r1 r3 w : ℚ) (h1 : 0 < l1) (h2 : 0 < l2)
    (val : LoopState → ℚ)
    (hz1half : r1/w < l1/2) (hz2half : l1 + l2/2 < (l1 + l2) - r3/w)
    (hE2 : ∀ j : ℕ, j ≤ 100 → (l1 + l2) - r3/w ≠ (j:ℚ) * ((l1+l2)/100))
    (hE3 : ∀ j : ℕ, j ≤ 100 → (l1 + l2) - r3/w ≠ l1 + (j:ℚ) * ((l1+l2)/100)) :
    ∀ K : ℕ, ∀ mn : ℚ, ∀ n : ℕ,
      l2 < ((K:ℚ)+1)*((l1+l2)/100) → 2*K + 3 ≤ n →
      endsAtL (l1+l2) (tsCalculateValue (l1+l2) l1 r1 w r3) val ⟨l1, mn⟩ n := by
  have hst : 0 < (l1+l2)/100 := by positivity
  intro K mn n hK hn
  have hl1lt : l1 < l1 + l2 := by linarith
  obtain ⟨n', rfl⟩ : ∃ n', n = n' + 2 := ⟨n - 2, by omega⟩
  by_cases hb4 : |l1 - (l1+l2)| < (l1+l2)/100
  · -- the whole second span is shorter than a step: snap to l and stop
    have hnext : tsCalculateValue (l1+l2) l1 r1 w r3 ⟨l1, mn⟩ = ⟨l1+l2, mn⟩ := by
      rw [tsCalculateValue_mk, if_neg (by intro hc; linarith),
        if_neg (by rintro ⟨-, hlt⟩; linarith), if_neg (by rintro ⟨hlt, -⟩; linarith),
        if_pos hb4]
    refine endsAtL_mono _ _ _ 2 (n'+2) _ (by omega) ?_
    refine endsAtL_step _ _ _ ⟨l1, mn⟩ _ (le_of_lt hl1lt) (ne_of_lt hl1lt) ?_
    rw [hnext]
    exact endsAtL_stop _ _ _ ⟨l1+l2, mn⟩ 0 rfl
  · -- advance into span 2
    have hfar : (l1+l2)/100 ≤ l2 := by
      rw [abs_sub_lt_iff, not_and_or] at hb4
      push_neg at hb4
      rcases hb4 with h | h
      · linarith
      · linarith
    have hKpos : 1 ≤ K := by
      by_contra hc
      have : K = 0 := by omega
      subst this
      push_cast at hK
      linarith
    obtain ⟨K', rfl⟩ : ∃ K', K = K' + 1 := ⟨K - 1, by omega⟩
    have hnext : tsCalculateValue (l1+l2) l1 r1 w r3 ⟨l1, mn⟩
        = ⟨l1 + (l1+l2)/100, 0⟩ := by
      rw [tsCalculateValue_mk, if_neg (by intro hc; linarith),
        if_neg (by rintro ⟨-, hlt⟩; linarith), if_neg (by rintro ⟨hlt, -⟩; linarith),
        if_neg hb4,
        if_neg (by rintro ⟨hgt, -⟩; exact lt_irrefl l1 hgt),
        if_neg (by
          rintro (hc | hc)
          · rw [← hc] at hz1half; linarith
          · rw [← hc] at hz2half; linarith)]
    refine endsAtL_step _ _ _ ⟨l1, mn⟩ _ (le_of_lt hl1lt) (ne_of_lt hl1lt) ?_
    rw [hnext]
    refine tsWalk2 l1 l2 r1 r3 w h1 h2 val hz1half hz2half hE2 hE3 (K'+1)
      (l1 + (l1+l2)/100) 0 (n'+1) ⟨1, by omega, Or.inr (by push_cast; ring)⟩
      (by linarith) (by linarith) ?_ (by omega)
    push_cast at hK ⊢
    linarith

/-- Span-1 walk: from an unshifted grid position strictly left of the middle
support, the stepping loop reaches `l` and stops there, possibly after
bouncing off the span-1 zero-shear point `r1/w`. -/
lemma tsWalk1 (l1 l2 r1 r3 w : ℚ) (h1 : 0 < l1) (h2 : 0 < l2)
    (val : LoopState → ℚ)
    (hz1half : r1/w < l1/2) (hz2half : l1 + l2/2 < (l1 + l2) - r3/w)
    (hE1 : ∀ j : ℕ, j ≤ 100 → r1/w ≠ (j:ℚ) * ((l1+l2)/100))
    (hE2 : ∀ j : ℕ, j ≤ 100 → (l1 + l2) - r3/w ≠ (j:ℚ) * ((l1+l2)/100))
    (hE3 : ∀ j : ℕ, j ≤ 100 → (l1 + l2) - r3/w ≠ l1 + (j:ℚ) * ((l1+l2)/100)) :
    ∀ K : ℕ, ∀ j : ℕ, ∀ mn : ℚ, ∀ n : ℕ,
      1 ≤ j → j ≤ 100 → (j:ℚ)*((l1+l2)/100) < l1 →
      l1 + l2 - (j:ℚ)*((l1+l2)/100) ≤ (K:ℚ)*((l1+l2)/100) →
      2*K + 4 ≤ n →
      endsAtL (l1+l2) (tsCalculateValue (l1+l2) l1 r1 w r3) val
        ⟨(j:ℚ)*((l1+l2)/100), mn⟩ n := by
  have hst : 0 < (l1+l2)/100 := by positivity
  have hl100 : l1 + l2 = 100 * ((l1+l2)/100) := by ring
  intro K
  induction K with
  | zero =>
    intro j mn n hj1 hj100 hjlt hK hn
    exfalso
    push_cast at hK
    linarith
  | succ K ih =>
    intro j mn n hj1 hj100 hjlt hK hn
    have hj1Q : (1:ℚ) ≤ (j:ℚ) := by exact_mod_cast hj1
    have hstle : (1:ℚ)*((l1+l2)/100) ≤ (j:ℚ)*((l1+l2)/100) :=
      mul_le_mul_of_nonneg_right hj1Q (le_of_lt hst)
    have hx0 : 0 < (j:ℚ)*((l1+l2)/100) := by linarith
    have hxz1 : (j:ℚ)*((l1+l2)/100) ≠ r1/w := fun hc => hE1 j hj100 hc.symm
    have hxz2 : (j:ℚ)*((l1+l2)/100) ≠ (l1+l2) - r3/w := fun hc => hE2 j hj100 hc.symm
    have hxltl : (j:ℚ)*((l1+l2)/100) < l1 + l2 := by linarith
    obtain ⟨n', rfl⟩ : ∃ n', n = n' + 2 := ⟨n - 2, by omega⟩
    by_cases hb2 : l1 - (j:ℚ)*((l1+l2)/100) ≤ (l1+l2)/100
    · -- within a step of the support: snap to l1
      have hb2yes : |(j:ℚ)*((l1+l2)/100) - l1| ≤ (l1+l2)/100 ∧
          (j:ℚ)*((l1+l2)/100) - l1 < 0 := by
        refine ⟨?_, by linarith⟩
        rw [abs_of_nonpos (by linarith)]
        linarith
      have hnext : tsCalculateValue (l1+l2) l1 r1 w r3 ⟨(j:ℚ)*((l1+l2)/100), mn⟩
          = ⟨l1, (j:ℚ)*((l1+l2)/100)⟩ := by
        rw [tsCalculateValue_mk, if_neg (ne_of_gt hx0), if_pos hb2yes]
      refine endsAtL_step _ _ _ ⟨(j:ℚ)*((l1+l2)/100), mn⟩ _ (le_of_lt hxltl)
        (ne_of_lt hxltl) ?_
      rw [hnext]
      refine tsWalkL1 l1 l2 r1 r3 w h1 h2 val hz1half hz2half hE2 hE3 K
        ((j:ℚ)*((l1+l2)/100)) (n'+1) ?_ (by omega)
      push_cast at hK ⊢
      linarith
    · -- more than a step from the support
      push_neg at hb2
      have hnb2 : ¬(|(j:ℚ)*((l1+l2)/100) - l1| ≤ (l1+l2)/100 ∧
          (j:ℚ)*((l1+l2)/100) - l1 < 0) := by
        rintro ⟨habs, -⟩
        rw [abs_of_nonpos (by linarith)] at habs
        linarith
      have hnb4 : ¬(|(j:ℚ)*((l1+l2)/100) - (l1+l2)| < (l1+l2)/100) := by
        rw [abs_of_nonpos (by linarith)]
        intro hc
        linarith
      have hnb5 : ¬((j:ℚ)*((l1+l2)/100) > l1 ∧
          (j:ℚ)*((l1+l2)/100) ≠ (l1+l2) - r3/w ∧ mn ≠ (l1+l2) - r3/w ∧
          |(j:ℚ)*((l1+l2)/100) - ((l1+l2) - r3/w)| < (l1+l2)/100) := by
        rintro ⟨hgt, -⟩
        linarith
      have hnb6 : ¬((j:ℚ)*((l1+l2)/100) = r1/w ∨
          (j:ℚ)*((l1+l2)/100) = (l1+l2) - r3/w) := by
        rintro (hc | hc)
        · exact hxz1 hc
        · exact hxz2 hc
      have hxstep : (j:ℚ)*((l1+l2)/100) + (l1+l2)/100 < l1 := by linarith
      have hj100' : j + 1 ≤ 100 := by
        by_contra hcon
        have : j = 100 := by omega
        subst this
        push_cast at hjlt
        linarith
      have hstep_eq : (j:ℚ)*((l1+l2)/100) + (l1+l2)/100
          = ((j+1:ℕ):ℚ)*((l1+l2)/100) := by push_cast; ring
      by_cases hb3 : mn ≠ r1/w ∧ |(j:ℚ)*((l1+l2)/100) - r1/w| ≤ (l1+l2)/100
      · -- snap to the zero-shear point z1
        have hz1win : (j:ℚ)*((l1+l2)/100) - (l1+l2)/100 ≤ r1/w ∧
            r1/w ≤ (j:ℚ)*((l1+l2)/100) + (l1+l2)/100 := by
          have := abs_le.mp hb3.2
          constructor <;> linarith [this.1, this.2]
        have hz1nonneg : (0:ℚ) ≤ r1/w := by linarith [hz1win.1]
        have hz1pos : 0 < r1/w := by
          rcases lt_or_eq_of_le hz1nonneg with h | h
          · exact h
          · exfalso
            refine hE1 0 (by omega) ?_
            rw [← h]
            push_cast
            ring
        have hnext : tsCalculateValue (l1+l2) l1 r1 w r3 ⟨(j:ℚ)*((l1+l2)/100), mn⟩
            = ⟨r1/w, (j:ℚ)*((l1+l2)/100)⟩ := by
          rw [tsCalculateValue_mk, if_neg (ne_of_gt hx0), if_neg hnb2,
            if_pos ⟨by linarith, hxz1, hb3.1, hb3.2⟩]
        refine endsAtL_step _ _ _ ⟨(j:ℚ)*((l1+l2)/100), mn⟩ _ (le_of_lt hxltl)
          (ne_of_lt hxltl) ?_
        rw [hnext]
        have hz1ltl1 : r1/w < l1 := by linarith
        have hz1ltl : r1/w < l1 + l2 := by linarith
        by_cases hb2' : l1 - r1/w ≤ (l1+l2)/100
        · -- from z1, the support is within a step: snap to l1
          have hb2yes' : |r1/w - l1| ≤ (l1+l2)/100 ∧ r1/w - l1 < 0 := by
            refine ⟨?_, by linarith⟩
            rw [abs_of_nonpos (by linarith)]
            linarith
          have hnext' : tsCalculateValue (l1+l2) l1 r1 w r3
              ⟨r1/w, (j:ℚ)*((l1+l2)/100)⟩ = ⟨l1, r1/w⟩ := by
            rw [tsCalculateValue_mk, if_neg (ne_of_gt hz1pos), if_pos hb2yes']
          refine endsAtL_step _ _ _ ⟨r1/w, (j:ℚ)*((l1+l2)/100)⟩ _ (le_of_lt hz1ltl)
            (ne_of_lt hz1ltl) ?_
          rw [hnext']
          refine tsWalkL1 l1 l2 r1 r3 w h1 h2 val hz1half hz2half hE2 hE3 K
            (r1/w) n' ?_ (by omega)
          push_cast at hK ⊢
          linarith
        · -- bounce: branch 6 advances one net step from the pre-snap position
          push_neg at hb2'
          have hnb2' : ¬(|r1/w - l1| ≤ (l1+l2)/100 ∧ r1/w - l1 < 0) := by
            rintro ⟨habs, -⟩
            rw [abs_of_nonpos (by linarith)] at habs
            linarith
          have hnb3' : ¬(r1/w < l1 ∧ r1/w ≠ r1/w ∧
              (j:ℚ)*((l1+l2)/100) ≠ r1/w ∧
              |r1/w - r1/w| ≤ (l1+l2)/100) := by
            rintro ⟨-, hne, -, -⟩
            exact hne rfl
          have hnb4' : ¬(|r1/w - (l1+l2)| < (l1+l2)/100) := by
            rw [abs_of_nonpos (by linarith)]
            intro hc
            linarith
          have hnb5' : ¬(r1/w > l1 ∧ r1/w ≠ (l1+l2) - r3/w ∧
              (j:ℚ)*((l1+l2)/100) ≠ (l1+l2) - r3/w ∧
              |r1/w - ((l1+l2) - r3/w)| < (l1+l2)/100) := by
            rintro ⟨hgt, -⟩
            linarith
          have hnext' : tsCalculateValue (l1+l2) l1 r1 w r3
              ⟨r1/w, (j:ℚ)*((l1+l2)/100)⟩
              = ⟨(j:ℚ)*((l1+l2)/100) + (l1+l2)/100, r1/w⟩ := by
            rw [tsCalculateValue_mk, if_neg (ne_of_gt hz1pos), if_neg hnb2',
              if_neg hnb3', if_neg hnb4', if_neg hnb5', if_pos (Or.inl rfl)]
          refine endsAtL_step _ _ _ ⟨r1/w, (j:ℚ)*((l1+l2)/100)⟩ _ (le_of_lt hz1ltl)
            (ne_of_lt hz1ltl) ?_
          rw [hnext', hstep_eq]
          refine ih (j+1) (r1/w) n' (by omega) hj100' ?_ ?_ (by omega)
          · push_cast
            push_cast at hxstep
            linarith
          · push_cast
            push_cast at hK
            linarith
      · -- plain advance
        have hnb3 : ¬((j:ℚ)*((l1+l2)/100) < l1 ∧
            (j:ℚ)*((l1+l2)/100) ≠ r1/w ∧ mn ≠ r1/w ∧
            |(j:ℚ)*((l1+l2)/100) - r1/w| ≤ (l1+l2)/100) := by
          rintro ⟨-, -, hmn, hwin⟩
          exact hb3 ⟨hmn, hwin⟩
        have hnext : tsCalculateValue (l1+l2) l1 r1 w r3 ⟨(j:ℚ)*((l1+l2)/100), mn⟩
            = ⟨(j:ℚ)*((l1+l2)/100) + (l1+l2)/100, 0⟩ := by
          rw [tsCalculateValue_mk, if_neg (ne_of_gt hx0), if_neg hnb2,
            if_neg hnb3, if_neg hnb4, if_neg hnb5, if_neg hnb6]
        refine endsAtL_step _ _ _ ⟨(j:ℚ)*((l1+l2)/100), mn⟩ _ (le_of_lt hxltl)
          (ne_of_lt hxltl) ?_
        rw [hnext, hstep_eq]
        refine ih (j+1) 0 (n'+1) (by omega) hj100' ?_ ?_ (by omega)
        · push_cast
          push_cast at hxstep
          linarith
        · push_cast
          push_cast at hK
          linarith

end BeamVerify

namespace BeamVerify

/-- From the initial state `(0, 0)`, the deflection/bending-moment stepping
loop always reaches `l` and stops there within 206 iterations. -/
lemma tsMain (l1 l2 r1 r3 w : ℚ) (h1 : 0 < l1) (h2 : 0 < l2)
    (val : LoopState → ℚ)
    (hz1half : r1/w < l1/2) (hz2half : l1 + l2/2 < (l1 + l2) - r3/w)
    (hE1 : ∀ j : ℕ, j ≤ 100 → r1/w ≠ (j:ℚ) * ((l1+l2)/100))
    (hE2 : ∀ j : ℕ, j ≤ 100 → (l1 + l2) - r3/w ≠ (j:ℚ) * ((l1+l2)/100))
    (hE3 : ∀ j : ℕ, j ≤ 100 → (l1 + l2) - r3/w ≠ l1 + (j:ℚ) * ((l1+l2)/100)) :
    endsAtL (l1+l2) (tsCalculateValue (l1+l2) l1 r1 w r3) val ⟨0, 0⟩ 206 := by
  have hst : 0 < (l1+l2)/100 := by positivity
  have hl : (0:ℚ) < l1 + l2 := by linarith
  have hl100 : l1 + l2 = 100 * ((l1+l2)/100) := by ring
  have hnext : tsCalculateValue (l1+l2) l1 r1 w r3 ⟨0, 0⟩
      = ⟨0 + (l1+l2)/100, -((l1+l2)/100)⟩ := by
    rw [tsCalculateValue_mk, if_pos rfl]
  have h206 : (206:ℕ) = 205 + 1 := rfl
  rw [h206]
  refine endsAtL_step _ _ _ ⟨0, 0⟩ 205 (le_of_lt hl) (ne_of_lt hl) ?_
  rw [hnext, show (0:ℚ) + (l1+l2)/100 = (l1+l2)/100 from zero_add _]
  rcases lt_trichotomy ((l1+l2)/100) l1 with hcase | hcase | hcase
  · -- the first step lands inside span 1
    have hx1 : ((1:ℕ):ℚ)*((l1+l2)/100) = (l1+l2)/100 := by push_cast; ring
    have hw1 := tsWalk1 l1 l2 r1 r3 w h1 h2 val hz1half hz2half hE1 hE2 hE3 99 1
      (-((l1+l2)/100)) 205 (by omega) (by omega)
      (by rw [hx1]; exact hcase) (by rw [hx1]; linarith) (by omega)
    rw [hx1] at hw1
    exact hw1
  · -- the first step lands exactly on the middle support
    rw [hcase]
    refine tsWalkL1 l1 l2 r1 r3 w h1 h2 val hz1half hz2half hE2 hE3 99
      (-l1) 205 ?_ (by omega)
    push_cast
    linarith [hcase]
  · -- the first step lands inside span 2
    refine tsWalk2 l1 l2 r1 r3 w h1 h2 val hz1half hz2half hE2 hE3 99
      ((l1+l2)/100) (-((l1+l2)/100)) 205
      ⟨1, by omega, Or.inl (by push_cast; ring)⟩ hcase (by linarith) ?_ (by omega)
    push_cast
    linarith

end BeamVerify

namespace BeamVerify

/-- `tsMain` instantiated with the actual two-span reactions: the
deflection/bending-moment stepping loop started at `(0,0)` with the
program's fuel ends with a sample at `l`. -/
lemma tsMain_concrete (l1 l2 w : ℚ) (h1 : 0 < l1) (h2 : 0 < l2) (hw : w ≠ 0)
    (val : LoopState → ℚ) :
    endsAtL (l1+l2)
      (tsCalculateValue (l1+l2) l1 (twoSpanReactions w l1 l2).r1 w
        (twoSpanReactions w l1 l2).r3) val ⟨0, 0⟩ loopFuel :=
  tsMain l1 l2 (twoSpanReactions w l1 l2).r1 (twoSpanReactions w l1 l2).r3 w h1 h2
    val (z1_lt_half l1 l2 w h1 h2 hw) (z2_gt l1 l2 w h1 h2 hw)
    (z1_ne_grid l1 l2 w h1 h2 hw) (z2_ne_grid l1 l2 w h1 h2 hw)
    (z2_ne_grid_shifted l1 l2 w h1 h2 hw)

/-- C9: for every two-span-unequal beam with `l1 > 0`, `l2 > 0` and load
`w ≠ 0`, the critical-point-aware stepping loop of each of the three curve
generators terminates with the final emitted position exactly the total
length `l = l1 + l2`. -/
theorem C9_stepping_terminates_at_l (l1 l2 w : ℚ) (mat : Material) (j : ℚ)
    (h1 : 0 < l1) (h2 : 0 < l2) (hw : w ≠ 0) :
    ((twoSpanUnequal.bendingMomentSamples (Beam.mk l1 l2 mat j) w).getLast?).map
        Prod.fst = some (l1 + l2) ∧
    ((twoSpanUnequal.deflectionSamples (Beam.mk l1 l2 mat j) w).getLast?).map
        Prod.fst = some (l1 + l2) ∧
    ((twoSpanUnequal.shearForceSamples (Beam.mk l1 l2 mat j) w).getLast?).map
        Prod.fst = some (l1 + l2) := by
  refine ⟨?_, ?_, ?_⟩
  · have h := tsMain_concrete l1 l2 w h1 h2 hw
      (fun s => calculateRoundedValue (l1+l2) l1 (twoSpanReactions w l1 l2).r1 w
        (twoSpanReactions w l1 l2).r2 s.x)
    rw [endsAtL] at h
    exact h
  · -- the deflection loop shares the position trace of the moment loop
    have hpos := runLoopIdx_map_fst (l1+l2)
      (tsCalculateValue (l1+l2) l1 (twoSpanReactions w l1 l2).r1 w
        (twoSpanReactions w l1 l2).r3)
      (fun i x => if i ≤ 11 then
          calculatePoint1 mat.EI (twoSpanReactions w l1 l2).r1 w l1 j x
        else
          calculatePoint2 (twoSpanReactions w l1 l2).r1
            (twoSpanReactions w l1 l2).r2 l1 w mat.EI j x)
      (fun _ => 0) loopFuel ⟨0, 0⟩ 0
    have hmain := tsMain_concrete l1 l2 w h1 h2 hw (fun _ => 0)
    rw [endsAtL] at hmain
    rw [deflectionSamples_eq]
    rw [← getLast?_map_fst, hpos, getLast?_map_fst]
    exact hmain
  · obtain ⟨T, hT, -, -, hTlast, -⟩ :=
      shRun_allcases l1 l2 (twoSpanReactions w l1 l2).r1
        (twoSpanReactions w l1 l2).r2 w h1 h2
    rw [shearForceSamples_eq]
    simp only at hT ⊢
    rw [show loopFuel = 206 from rfl, hT]
    exact hTlast

/-- Witness for C9 at the beam `l1 = 5`, `l2 = 5`, `w = 1`. -/
theorem C9_stepping_terminates_at_l_witness :
    (0:ℚ) < 5 ∧ (1:ℚ) ≠ 0 ∧
    ((twoSpanUnequal.bendingMomentSamples
        (Beam.mk 5 5 ⟨"steel", 2000000000⟩ 1) 1).getLast?).map Prod.fst
      = some ((5:ℚ) + 5) :=
  ⟨by norm_num, by norm_num,
   (C9_stepping_terminates_at_l 5 5 1 ⟨"steel", 2000000000⟩ 1
      (by norm_num) (by norm_num) (by norm_num)).1⟩

end BeamVerify
